import Mathlib

/-!
Verification of the canonical fact hashing and on-chain verification registry
of the MumbaiHacksHealth repository.

This file shallowly embeds, in Lean 4:

* the `HealthFactRegistry` Solidity contract (enums, `HealthFact` struct,
  storage mappings, `addFact`, `updateFactStatus`, `getFactByHash`,
  `getFactById`, `checkFactExists`, `transferOwnership`) — Solidity mappings
  are modelled as total functions with the zero struct as default, exactly
  as EVM storage behaves; `bytes32` hashes and addresses are modelled as
  `Nat` (no arithmetic is performed on them, so no wrap-around is involved);
* the frontend canonical JSON serializer `canonicalizeJSON` and
  `hashFactJSON` from `frontend/src/utils/canonicalHash.js`, over an
  inductive model of JSON values whose serialization follows
  `JSON.stringify` (ECMA-262), including its treatment of non-finite
  numbers, together with a full SHA-256 implementation so that the hash
  functions are the actual ones;
* the registration coordinator loop of `scripts/add_who_facts.js`
  (hash, probe `checkFactExists`, submit `addFact`, per-record
  success/skip/failure accounting).

Theorems named `C1` … `C10` settle the frozen specification claims.
-/

/-! ## Registry contract model (from `HealthFactRegistry.sol`) -/

/-- Health claim verdict categories, in the contract's enum order. -/
inductive Verdict
| TRUE
| FALSE
| MISLEADING
| UNPROVEN
| PARTIALLY_TRUE
deriving DecidableEq, Repr

/-- Public health impact severity levels, in the contract's enum order. -/
inductive Severity
| LOW
| MEDIUM
| HIGH
| CRITICAL
deriving DecidableEq, Repr

/-- Lifecycle status of a fact record, in the contract's enum order
(`ACTIVE` is 0, hence the zero/default value of the enum). -/
inductive Status
| ACTIVE
| SUPERSEDED
| WITHDRAWN
deriving DecidableEq, Repr

/-- Numeric value of a `Status`, as encoded by the Solidity enum. -/
def Status.toNat : Status → Nat
| .ACTIVE => 0
| .SUPERSEDED => 1
| .WITHDRAWN => 2

/-- Revert reasons of the contract, one constructor per distinct `require`
message family.  `invalidTimestamp` covers both the "future issuedAt
timestamp" and the "lastReviewedAt before issuedAt" messages; `notFound`
covers both "fact does not exist" and "fact ID not found". -/
inductive Err
| unauthorized
| alreadyExists
| invalidFactHash
| emptyFactId
| invalidVersion
| invalidTimestamp
| identifierConflict
| notFound
| statusUnchanged
| zeroNewOwner
| sameOwner
deriving DecidableEq, Repr

/-- Events emitted by the contract. -/
inductive Event
| FactAdded (factHash : Nat) (factId : String) (verdict : Verdict)
    (severity : Severity) (addedBy : Nat) (issuedAt : Nat)
| FactUpdated (factHash : Nat) (factId : String) (oldStatus newStatus : Status)
    (updatedBy : Nat) (updatedAt : Nat)
| OwnershipTransferred (previousOwner newOwner : Nat) (transferredAt : Nat)
deriving DecidableEq, Repr

/-- On-chain representation of a WHO health fact (the `HealthFact` struct). -/
structure HealthFact where
  factHash : Nat
  factId : String
  verdict : Verdict
  severity : Severity
  issuedAt : Nat
  lastReviewedAt : Nat
  version : Nat
  status : Status
  addedBy : Nat
  addedAtBlock : Nat
deriving DecidableEq, Repr

/-- Zero-initialized `HealthFact`, the default value of an EVM storage slot:
all integer fields 0, empty string, and every enum at its zero value. -/
def zeroFact : HealthFact :=
  { factHash := 0, factId := "", verdict := .TRUE, severity := .LOW,
    issuedAt := 0, lastReviewedAt := 0, version := 0, status := .ACTIVE,
    addedBy := 0, addedAtBlock := 0 }

/-- Contract storage.  `factsByHash` and `hashByFactId` are Solidity
mappings, modelled as total functions defaulting to the zero values. -/
structure Registry where
  owner : Nat
  factsByHash : Nat → HealthFact
  hashByFactId : String → Nat
  allFactHashes : List Nat
  totalFacts : Nat
  events : List Event

/-- Constructor: the deployer becomes the owner and an
`OwnershipTransferred` event from the zero address is emitted. -/
def initRegistry (deployer ts : Nat) : Registry :=
  { owner := deployer,
    factsByHash := fun _ => zeroFact,
    hashByFactId := fun _ => 0,
    allFactHashes := [],
    totalFacts := 0,
    events := [.OwnershipTransferred 0 deployer ts] }

/-- Model of `addFact`.  The guards appear in the contract's order:
the `onlyOwner` and `factNotExists` modifiers, then the body's `require`
statements (non-zero hash, non-empty id, version ≥ 1, `issuedAt` not in the
future, `lastReviewedAt ≥ issuedAt`, fact id unused), then the write and
the `FactAdded` event.  `now` is `block.timestamp`, `blockNum` is
`block.number`, `sender` is `msg.sender`. -/
def addFact (st : Registry) (sender now blockNum : Nat) (h : Nat)
    (id : String) (v : Verdict) (sv : Severity) (ia lra ver : Nat) :
    Except Err Registry :=
  if sender ≠ st.owner then .error .unauthorized
  else if (st.factsByHash h).factHash ≠ 0 then .error .alreadyExists
  else if h = 0 then .error .invalidFactHash
  else if id = "" then .error .emptyFactId
  else if ver = 0 then .error .invalidVersion
  else if now < ia then .error .invalidTimestamp
  else if lra < ia then .error .invalidTimestamp
  else if st.hashByFactId id ≠ 0 then .error .identifierConflict
  else
    .ok { st with
      factsByHash := fun h2 => if h2 = h then
          { factHash := h, factId := id, verdict := v, severity := sv,
            issuedAt := ia, lastReviewedAt := lra, version := ver,
            status := .ACTIVE, addedBy := sender, addedAtBlock := blockNum }
        else st.factsByHash h2,
      hashByFactId := fun i2 => if i2 = id then h else st.hashByFactId i2,
      allFactHashes := st.allFactHashes ++ [h],
      totalFacts := st.totalFacts + 1,
      events := st.events ++ [.FactAdded h id v sv sender ia] }

/-- Model of `updateFactStatus`: owner-only, the fact must exist, and the
new status must differ from the current one.  No other transition guard is
present in the contract. -/
def updateFactStatus (st : Registry) (sender now : Nat) (h : Nat)
    (newStatus : Status) : Except Err Registry :=
  if sender ≠ st.owner then .error .unauthorized
  else if (st.factsByHash h).factHash = 0 then .error .notFound
  else if (st.factsByHash h).status = newStatus then .error .statusUnchanged
  else
    .ok { st with
      factsByHash := fun h2 => if h2 = h then
          { (st.factsByHash h) with status := newStatus }
        else st.factsByHash h2,
      events := st.events ++
        [.FactUpdated h (st.factsByHash h).factId (st.factsByHash h).status
          newStatus sender now] }

/-- Model of `getFactByHash` (reverts with "fact does not exist" when the
hash is unknown). -/
def getFactByHash (st : Registry) (h : Nat) : Except Err HealthFact :=
  if (st.factsByHash h).factHash = 0 then .error .notFound
  else .ok (st.factsByHash h)

/-- Model of `getFactById` (reverts with "fact ID not found" when the id
has no hash). -/
def getFactById (st : Registry) (id : String) : Except Err HealthFact :=
  if st.hashByFactId id = 0 then .error .notFound
  else .ok (st.factsByHash (st.hashByFactId id))

/-- Model of `checkFactExists`: returns the existence flag and the status
field of the (possibly zero-initialized) storage slot. -/
def checkFactExists (st : Registry) (h : Nat) : Bool × Status :=
  ((st.factsByHash h).factHash != 0, (st.factsByHash h).status)

/-- Model of `transferOwnership`. -/
def transferOwnership (st : Registry) (sender now newOwner : Nat) :
    Except Err Registry :=
  if sender ≠ st.owner then .error .unauthorized
  else if newOwner = 0 then .error .zeroNewOwner
  else if newOwner = st.owner then .error .sameOwner
  else
    .ok { st with
      owner := newOwner,
      events := st.events ++ [.OwnershipTransferred st.owner newOwner now] }

/-- Any mutating call to the contract, with its transaction context. -/
inductive Op
| add (sender now blockNum h : Nat) (id : String) (v : Verdict)
    (sv : Severity) (ia lra ver : Nat)
| setStatus (sender now h : Nat) (s : Status)
| xfer (sender now newOwner : Nat)

/-- Execute one call; a revert (error) leaves the storage unchanged,
exactly as an EVM revert rolls back the transaction. -/
def exec (st : Registry) (op : Op) : Registry :=
  match op with
  | .add sender now blockNum h id v sv ia lra ver =>
    match addFact st sender now blockNum h id v sv ia lra ver with
    | .ok st2 => st2
    | .error _ => st
  | .setStatus sender now h s =>
    match updateFactStatus st sender now h s with
    | .ok st2 => st2
    | .error _ => st
  | .xfer sender now newOwner =>
    match transferOwnership st sender now newOwner with
    | .ok st2 => st2
    | .error _ => st

/-- States of the contract reachable from deployment by any sequence of
calls. -/
inductive Reachable : Registry → Prop
| init (deployer ts : Nat) : Reachable (initRegistry deployer ts)
| step (st : Registry) (op : Op) : Reachable st → Reachable (exec st op)

/-- Equality of all fields of a `HealthFact` except `status`: the
substantive content of a registry entry. -/
def substEq (a b : HealthFact) : Prop :=
  a.factHash = b.factHash ∧ a.factId = b.factId ∧ a.verdict = b.verdict ∧
  a.severity = b.severity ∧ a.issuedAt = b.issuedAt ∧
  a.lastReviewedAt = b.lastReviewedAt ∧ a.version = b.version ∧
  a.addedBy = b.addedBy ∧ a.addedAtBlock = b.addedAtBlock

instance (a b : HealthFact) : Decidable (substEq a b) := by
  unfold substEq; infer_instance

deriving instance DecidableEq for Except

theorem substEq_refl (a : HealthFact) : substEq a a :=
  ⟨rfl, rfl, rfl, rfl, rfl, rfl, rfl, rfl, rfl⟩

/-- Inversion of a successful `addFact`: every guard passed and the
resulting state is the expected update. -/
theorem addFact_ok_inv {st : Registry} {sender now bn h : Nat} {id : String}
    {v : Verdict} {sv : Severity} {ia lra ver : Nat} {st2 : Registry}
    (he : addFact st sender now bn h id v sv ia lra ver = Except.ok st2) :
    sender = st.owner ∧ (st.factsByHash h).factHash = 0 ∧ ¬(h = 0) ∧
    ¬(id = "") ∧ ¬(ver = 0) ∧ ¬(now < ia) ∧ ¬(lra < ia) ∧
    st.hashByFactId id = 0 ∧
    st2 = { st with
      factsByHash := fun h2 => if h2 = h then
          { factHash := h, factId := id, verdict := v, severity := sv,
            issuedAt := ia, lastReviewedAt := lra, version := ver,
            status := .ACTIVE, addedBy := sender, addedAtBlock := bn }
        else st.factsByHash h2,
      hashByFactId := fun i2 => if i2 = id then h else st.hashByFactId i2,
      allFactHashes := st.allFactHashes ++ [h],
      totalFacts := st.totalFacts + 1,
      events := st.events ++ [.FactAdded h id v sv sender ia] } := by
  unfold addFact at he
  split at he
  · exact Except.noConfusion he
  next hc1 =>
  split at he
  · exact Except.noConfusion he
  next hc2 =>
  split at he
  · exact Except.noConfusion he
  next hc3 =>
  split at he
  · exact Except.noConfusion he
  next hc4 =>
  split at he
  · exact Except.noConfusion he
  next hc5 =>
  split at he
  · exact Except.noConfusion he
  next hc6 =>
  split at he
  · exact Except.noConfusion he
  next hc7 =>
  split at he
  · exact Except.noConfusion he
  next hc8 =>
  exact ⟨not_ne_iff.mp hc1, not_ne_iff.mp hc2, hc3, hc4, hc5, hc6, hc7,
    not_ne_iff.mp hc8, (Except.ok.inj he).symm⟩

/-- Inversion of a successful `updateFactStatus`. -/
theorem updateFactStatus_ok_inv {st : Registry} {sender now h : Nat}
    {s : Status} {st2 : Registry}
    (he : updateFactStatus st sender now h s = Except.ok st2) :
    sender = st.owner ∧ (st.factsByHash h).factHash ≠ 0 ∧
    (st.factsByHash h).status ≠ s ∧
    st2 = { st with
      factsByHash := fun h2 => if h2 = h then
          { (st.factsByHash h) with status := s }
        else st.factsByHash h2,
      events := st.events ++
        [.FactUpdated h (st.factsByHash h).factId (st.factsByHash h).status
          s sender now] } := by
  unfold updateFactStatus at he
  split at he
  · exact Except.noConfusion he
  next hc1 =>
  split at he
  · exact Except.noConfusion he
  next hc2 =>
  split at he
  · exact Except.noConfusion he
  next hc3 =>
  exact ⟨not_ne_iff.mp hc1, hc2, hc3, (Except.ok.inj he).symm⟩

/-- Inversion of a successful `transferOwnership`. -/
theorem transferOwnership_ok_inv {st : Registry} {sender now newOwner : Nat}
    {st2 : Registry}
    (he : transferOwnership st sender now newOwner = Except.ok st2) :
    st2 = { st with
      owner := newOwner,
      events := st.events ++
        [.OwnershipTransferred st.owner newOwner now] } := by
  unfold transferOwnership at he
  split at he
  · exact Except.noConfusion he
  split at he
  · exact Except.noConfusion he
  split at he
  · exact Except.noConfusion he
  exact (Except.ok.inj he).symm

/-- One contract call never touches the substantive fields of an existing
entry: only `status` can change, and only through `updateFactStatus`. -/
theorem exec_preserves_subst (st : Registry) (op : Op) (h : Nat)
    (hx : (st.factsByHash h).factHash ≠ 0) :
    substEq ((exec st op).factsByHash h) (st.factsByHash h) := by
  cases op with
  | add sender now bn h2 id v sv ia lra ver =>
    cases he : addFact st sender now bn h2 id v sv ia lra ver with
    | error e => simp only [exec, he]; exact substEq_refl _
    | ok st2 =>
      simp only [exec, he]
      obtain ⟨-, hfresh, -, -, -, -, -, -, hst2⟩ := addFact_ok_inv he
      subst hst2
      dsimp only
      by_cases hhh : h = h2
      · subst hhh; exact absurd hfresh hx
      · simp only [if_neg hhh]; exact substEq_refl _
  | setStatus sender now h2 s =>
    cases he : updateFactStatus st sender now h2 s with
    | error e => simp only [exec, he]; exact substEq_refl _
    | ok st2 =>
      simp only [exec, he]
      obtain ⟨-, -, -, hst2⟩ := updateFactStatus_ok_inv he
      subst hst2
      dsimp only
      by_cases hhh : h = h2
      · subst hhh
        simp only [if_pos rfl]
        exact ⟨rfl, rfl, rfl, rfl, rfl, rfl, rfl, rfl, rfl⟩
      · simp only [if_neg hhh]; exact substEq_refl _
  | xfer sender now newOwner =>
    cases he : transferOwnership st sender now newOwner with
    | error e => simp only [exec, he]; exact substEq_refl _
    | ok st2 =>
      simp only [exec, he]
      have hst2 := transferOwnership_ok_inv he
      subst hst2
      exact substEq_refl _

/-- Status of an existing entry may change, but its hash field stays
non-zero: entries are never deleted. -/
theorem exec_preserves_exists (st : Registry) (op : Op) (h : Nat)
    (hx : (st.factsByHash h).factHash ≠ 0) :
    ((exec st op).factsByHash h).factHash ≠ 0 := by
  have hs := exec_preserves_subst st op h hx
  rw [hs.1]; exact hx

/-- C8.  Registry entries are permanent and immutable except for `status`:
after any sequence of contract calls, an entry that existed keeps every
substantive field (hash, id, verdict, severity, both timestamps, version,
registrant, registration block) unchanged, and `getFactByHash` still
returns it.  Only the `status` field may differ.  Confirms the claim. -/
theorem C8_entries_immutable_except_status (ops : List Op) (st : Registry)
    (h : Nat) (hx : (st.factsByHash h).factHash ≠ 0) :
    substEq ((ops.foldl exec st).factsByHash h) (st.factsByHash h) ∧
    getFactByHash (ops.foldl exec st) h =
      .ok ((ops.foldl exec st).factsByHash h) := by
  induction ops generalizing st with
  | nil =>
    refine ⟨substEq_refl _, ?_⟩
    unfold getFactByHash
    simp only [List.foldl_nil]
    rw [if_neg hx]
  | cons op rest ih =>
    have hx2 := exec_preserves_exists st op h hx
    have h1 := exec_preserves_subst st op h hx
    obtain ⟨h2, h3⟩ := ih (exec st op) hx2
    refine ⟨?_, ?_⟩
    · simp only [List.foldl_cons]
      exact ⟨h2.1.trans h1.1, h2.2.1.trans h1.2.1, h2.2.2.1.trans h1.2.2.1,
        h2.2.2.2.1.trans h1.2.2.2.1, h2.2.2.2.2.1.trans h1.2.2.2.2.1,
        h2.2.2.2.2.2.1.trans h1.2.2.2.2.2.1,
        h2.2.2.2.2.2.2.1.trans h1.2.2.2.2.2.2.1,
        h2.2.2.2.2.2.2.2.1.trans h1.2.2.2.2.2.2.2.1,
        h2.2.2.2.2.2.2.2.2.trans h1.2.2.2.2.2.2.2.2⟩
    · simpa only [List.foldl_cons] using h3

/-- Never-written storage slots hold the zero struct in every reachable
state. -/
theorem reachable_zero_slot {st : Registry} (hr : Reachable st) :
    ∀ h, (st.factsByHash h).factHash = 0 → st.factsByHash h = zeroFact := by
  induction hr with
  | init deployer ts => intro h _; rfl
  | step st op _ ih =>
    intro h h0
    by_cases hx : (st.factsByHash h).factHash ≠ 0
    · exact absurd ((exec_preserves_subst st op h hx).1.symm.trans h0) hx
    · push_neg at hx
      have hold := ih h hx
      cases op with
      | add sender now bn h2 id v sv ia lra ver =>
        cases he : addFact st sender now bn h2 id v sv ia lra ver with
        | error e => simp only [exec, he]; exact hold
        | ok st2 =>
          obtain ⟨-, -, hnz, -, -, -, -, -, hst2⟩ := addFact_ok_inv he
          simp only [exec, he] at h0 ⊢
          subst hst2
          dsimp only at h0 ⊢
          by_cases hhh : h = h2
          · subst hhh; simp only [if_pos rfl] at h0; exact absurd h0 hnz
          · simp only [if_neg hhh] at h0 ⊢; exact hold
      | setStatus sender now h2 s =>
        cases he : updateFactStatus st sender now h2 s with
        | error e => simp only [exec, he]; exact hold
        | ok st2 =>
          obtain ⟨-, hex, -, hst2⟩ := updateFactStatus_ok_inv he
          simp only [exec, he] at h0 ⊢
          subst hst2
          dsimp only at h0 ⊢
          by_cases hhh : h = h2
          · subst hhh; simp only [if_pos rfl] at h0; exact absurd h0 hex
          · simp only [if_neg hhh] at h0 ⊢; exact hold
      | xfer sender now newOwner =>
        cases he : transferOwnership st sender now newOwner with
        | error e => simp only [exec, he]; exact hold
        | ok st2 =>
          have hst2 := transferOwnership_ok_inv he
          simp only [exec, he] at h0 ⊢
          subst hst2
          exact hold

/-- C10.  For a hash that was never registered, `checkFactExists` returns
`exists = false` paired with the default status `ACTIVE` (the Solidity
enum's zero value): the returned status carries no information until the
boolean is checked.  Confirms the claim. -/
theorem C10_absent_probe_default_status (st : Registry) (h : Nat)
    (hr : Reachable st) (habs : (st.factsByHash h).factHash = 0) :
    checkFactExists st h = (false, Status.ACTIVE) ∧
    (checkFactExists st h).2.toNat = 0 := by
  have hz := reachable_zero_slot hr h habs
  unfold checkFactExists
  rw [hz]
  exact ⟨rfl, rfl⟩

/-- Witness for C10 at a concrete reachable state: deploy, register one
fact, probe a different hash. -/
theorem C10_witness :
    Reachable (exec (initRegistry 1 0)
      (.add 1 10 5 7 "f-1" .FALSE .HIGH 3 4 1)) ∧
    ((exec (initRegistry 1 0)
      (.add 1 10 5 7 "f-1" .FALSE .HIGH 3 4 1)).factsByHash 9).factHash = 0 ∧
    checkFactExists (exec (initRegistry 1 0)
      (.add 1 10 5 7 "f-1" .FALSE .HIGH 3 4 1)) 9 = (false, Status.ACTIVE) :=
  ⟨Reachable.step _ _ (Reachable.init 1 0), by decide,
    (C10_absent_probe_default_status _ 9
      (Reachable.step _ _ (Reachable.init 1 0)) (by decide)).1⟩

/-- Witness state: freshly deployed registry (owner 1) with one fact
registered at hash 7 under id "f-1". -/
def stW1 : Registry :=
  exec (initRegistry 1 0) (.add 1 10 5 7 "f-1" .FALSE .HIGH 3 4 1)

/-- Witness state: `stW1` with the fact at hash 7 moved to `SUPERSEDED`. -/
def stW2 : Registry := exec stW1 (.setStatus 1 11 7 .SUPERSEDED)

/-- Witness state: `stW1` with the fact at hash 7 moved to `WITHDRAWN`. -/
def stW3 : Registry := exec stW1 (.setStatus 1 11 7 .WITHDRAWN)

/-- Witness for C8: after superseding the fact and transferring ownership,
the entry registered in `stW1` keeps all substantive fields and is still
returned by `getFactByHash`. -/
theorem C8_witness :
    (stW1.factsByHash 7).factHash ≠ 0 ∧
    (substEq
      (([Op.setStatus 1 11 7 .SUPERSEDED, Op.xfer 1 12 2].foldl exec
          stW1).factsByHash 7)
      (stW1.factsByHash 7) ∧
    getFactByHash
        ([Op.setStatus 1 11 7 .SUPERSEDED, Op.xfer 1 12 2].foldl exec stW1)
        7 =
      .ok (([Op.setStatus 1 11 7 .SUPERSEDED, Op.xfer 1 12 2].foldl exec
          stW1).factsByHash 7)) :=
  ⟨by decide,
    C8_entries_immutable_except_status
      [Op.setStatus 1 11 7 .SUPERSEDED, Op.xfer 1 12 2] stW1 7 (by decide)⟩

/-- C1 (amended).  The contract does NOT enforce the terminal-state
invariant: `updateFactStatus` succeeds for every transition between two
distinct statuses, including transitions out of `SUPERSEDED` and
`WITHDRAWN`.  The only guards are ownership, existence of the fact, and
the new status differing from the current one; the substantive fields are
untouched. -/
theorem C1_terminal_states_not_enforced (st : Registry) (sender now h : Nat)
    (s : Status) (hown : sender = st.owner)
    (hex : (st.factsByHash h).factHash ≠ 0)
    (hne : (st.factsByHash h).status ≠ s) :
    ∃ st2, updateFactStatus st sender now h s = .ok st2 ∧
      (st2.factsByHash h).status = s ∧
      substEq (st2.factsByHash h) (st.factsByHash h) := by
  unfold updateFactStatus
  rw [if_neg (not_not_intro hown), if_neg hex, if_neg hne]
  refine ⟨_, rfl, ?_, ?_⟩
  · dsimp only
    rw [if_pos rfl]
  · dsimp only
    rw [if_pos rfl]
    exact ⟨rfl, rfl, rfl, rfl, rfl, rfl, rfl, rfl, rfl⟩

/-- Counterexample to C1 as stated: a fact in the terminal state
`SUPERSEDED` is moved back to `ACTIVE` by the designated writer, and the
call succeeds. -/
theorem C1_counterexample :
    (stW2.factsByHash 7).status = Status.SUPERSEDED ∧
    (updateFactStatus stW2 1 12 7 .ACTIVE).map
        (fun st3 => (st3.factsByHash 7).status) =
      .ok Status.ACTIVE := by
  exact ⟨by decide, by decide⟩

/-- Witness for the amended C1 at the concrete state `stW2`. -/
theorem C1_witness :
    ((1 : Nat) = stW2.owner ∧ (stW2.factsByHash 7).factHash ≠ 0 ∧
      (stW2.factsByHash 7).status ≠ Status.ACTIVE) ∧
    ∃ st2, updateFactStatus stW2 1 12 7 .ACTIVE = .ok st2 ∧
      (st2.factsByHash 7).status = .ACTIVE ∧
      substEq (st2.factsByHash 7) (stW2.factsByHash 7) :=
  ⟨⟨by decide, by decide, by decide⟩,
    C1_terminal_states_not_enforced stW2 1 12 7 .ACTIVE (by decide)
      (by decide) (by decide)⟩

/-- C3 (amended).  With every other guard satisfied, `addFact` fails with
the fact-id conflict error exactly when the id already maps to ANY
non-zero hash — regardless of that hash's status.  The contract never
clears `hashByFactId`, so a `fact_id` whose previous hash is `SUPERSEDED`
or `WITHDRAWN` can NOT be registered again. -/
theorem C3_id_conflict_iff (st : Registry) (sender now bn h : Nat)
    (id : String) (v : Verdict) (sv : Severity) (ia lra ver : Nat)
    (hown : sender = st.owner) (hfresh : (st.factsByHash h).factHash = 0)
    (hh : h ≠ 0) (hid : id ≠ "") (hver : ver ≠ 0) (hia : ia ≤ now)
    (hlra : ia ≤ lra) :
    addFact st sender now bn h id v sv ia lra ver =
        .error .identifierConflict ↔
      st.hashByFactId id ≠ 0 := by
  unfold addFact
  rw [if_neg (not_not_intro hown), if_neg (not_not_intro hfresh), if_neg hh,
    if_neg hid, if_neg hver, if_neg (Nat.not_lt.mpr hia),
    if_neg (Nat.not_lt.mpr hlra)]
  by_cases hc : st.hashByFactId id ≠ 0
  · rw [if_pos hc]
    exact iff_of_true rfl hc
  · rw [if_neg hc]
    exact iff_of_false (fun hcon => Except.noConfusion hcon) hc

/-- Counterexample to C3 as stated: the fact at hash 7 / id "f-1" is
`WITHDRAWN` (terminal), yet registering a new hash 8 under the same id
"f-1" fails with the identifier conflict ("fact ID already exists"). -/
theorem C3_counterexample :
    (stW3.factsByHash 7).status = Status.WITHDRAWN ∧
    (addFact stW3 1 20 6 8 "f-1" .TRUE .LOW 3 4 1).map (fun _ => ()) =
      .error .identifierConflict :=
  ⟨by decide, by decide⟩

/-- Witness for the amended C3 at the concrete state `stW3`. -/
theorem C3_witness :
    ((1 : Nat) = stW3.owner ∧ (stW3.factsByHash 8).factHash = 0 ∧
      (8 : Nat) ≠ 0 ∧ "f-1" ≠ "" ∧ (1 : Nat) ≠ 0 ∧ (3 : Nat) ≤ 20 ∧
      (3 : Nat) ≤ 4) ∧
    (addFact stW3 1 20 6 8 "f-1" .TRUE .LOW 3 4 1 =
        .error .identifierConflict ↔
      stW3.hashByFactId "f-1" ≠ 0) :=
  ⟨⟨by decide, by decide, by decide, by decide, by decide, by decide,
      by decide⟩,
    C3_id_conflict_iff stW3 1 20 6 8 "f-1" .TRUE .LOW 3 4 1 (by decide)
      (by decide) (by decide) (by decide) (by decide) (by decide)
      (by decide)⟩

/-- C5.  Behaviour of `addFact` (the `register` operation): the claimed
error conditions and, on success, the `ACTIVE` status, the next sequence
number (the hash is appended to `allFactHashes` at index `totalFacts`,
and the counter is incremented), and the `FactAdded` event carrying
`{fact_hash, fact_id, verdict, severity, writer, issued_at}`.  Confirms
the claim. -/
theorem C5_register_behavior (st : Registry) (sender now bn h : Nat)
    (id : String) (v : Verdict) (sv : Severity) (ia lra ver : Nat) :
    (sender ≠ st.owner →
      addFact st sender now bn h id v sv ia lra ver = .error .unauthorized)
    ∧ (sender = st.owner → (st.factsByHash h).factHash ≠ 0 →
      addFact st sender now bn h id v sv ia lra ver = .error .alreadyExists)
    ∧ (sender = st.owner → (st.factsByHash h).factHash = 0 → h ≠ 0 →
      id ≠ "" → ver = 0 →
      addFact st sender now bn h id v sv ia lra ver = .error .invalidVersion)
    ∧ (sender = st.owner → (st.factsByHash h).factHash = 0 → h ≠ 0 →
      id ≠ "" → ver ≠ 0 → (now < ia ∨ lra < ia) →
      addFact st sender now bn h id v sv ia lra ver =
        .error .invalidTimestamp)
    ∧ (sender = st.owner → (st.factsByHash h).factHash = 0 → h ≠ 0 →
      id ≠ "" → ver ≠ 0 → ia ≤ now → ia ≤ lra → st.hashByFactId id = 0 →
      ∃ st2, addFact st sender now bn h id v sv ia lra ver = .ok st2 ∧
        st2.factsByHash h =
          { factHash := h, factId := id, verdict := v, severity := sv,
            issuedAt := ia, lastReviewedAt := lra, version := ver,
            status := .ACTIVE, addedBy := sender, addedAtBlock := bn } ∧
        st2.hashByFactId id = h ∧
        st2.totalFacts = st.totalFacts + 1 ∧
        st2.allFactHashes = st.allFactHashes ++ [h] ∧
        st2.events = st.events ++ [.FactAdded h id v sv sender ia]) := by
  refine ⟨?_, ?_, ?_, ?_, ?_⟩
  · intro hno
    unfold addFact
    rw [if_pos hno]
  · intro hown hexist
    unfold addFact
    rw [if_neg (not_not_intro hown), if_pos hexist]
  · intro hown hfresh hh hid hver
    unfold addFact
    rw [if_neg (not_not_intro hown), if_neg (not_not_intro hfresh),
      if_neg hh, if_neg hid, if_pos hver]
  · intro hown hfresh hh hid hver hts
    unfold addFact
    rw [if_neg (not_not_intro hown), if_neg (not_not_intro hfresh),
      if_neg hh, if_neg hid, if_neg hver]
    by_cases hnow : now < ia
    · rw [if_pos hnow]
    · rw [if_neg hnow, if_pos (hts.resolve_left hnow)]
  · intro hown hfresh hh hid hver hia hlra hidfree
    unfold addFact
    rw [if_neg (not_not_intro hown), if_neg (not_not_intro hfresh),
      if_neg hh, if_neg hid, if_neg hver, if_neg (Nat.not_lt.mpr hia),
      if_neg (Nat.not_lt.mpr hlra), if_neg (not_not_intro hidfree)]
    refine ⟨_, rfl, ?_, ?_, rfl, rfl, rfl⟩
    · dsimp only
      rw [if_pos rfl]
    · dsimp only
      rw [if_pos rfl]

/-- Witness for C5: a successful registration on the freshly deployed
registry, checked through the success conjunct of the theorem. -/
theorem C5_witness :
    ((1 : Nat) = (initRegistry 1 0).owner ∧
      ((initRegistry 1 0).factsByHash 7).factHash = 0 ∧ (7 : Nat) ≠ 0 ∧
      "f-1" ≠ "" ∧ (1 : Nat) ≠ 0 ∧ (3 : Nat) ≤ 10 ∧ (3 : Nat) ≤ 4 ∧
      (initRegistry 1 0).hashByFactId "f-1" = 0) ∧
    ∃ st2, addFact (initRegistry 1 0) 1 10 5 7 "f-1" .FALSE .HIGH 3 4 1 =
        .ok st2 ∧
      st2.factsByHash 7 =
        { factHash := 7, factId := "f-1", verdict := .FALSE,
          severity := .HIGH, issuedAt := 3, lastReviewedAt := 4,
          version := 1, status := .ACTIVE, addedBy := 1,
          addedAtBlock := 5 } ∧
      st2.hashByFactId "f-1" = 7 ∧
      st2.totalFacts = (initRegistry 1 0).totalFacts + 1 ∧
      st2.allFactHashes = (initRegistry 1 0).allFactHashes ++ [7] ∧
      st2.events = (initRegistry 1 0).events ++
        [.FactAdded 7 "f-1" .FALSE .HIGH 1 3] :=
  ⟨⟨by decide, by decide, by decide, by decide, by decide, by decide,
      by decide, by decide⟩,
    (C5_register_behavior (initRegistry 1 0) 1 10 5 7 "f-1" .FALSE .HIGH
        3 4 1).2.2.2.2 (by decide) (by decide) (by decide) (by decide)
      (by decide) (by decide) (by decide) (by decide)⟩

/-! ## Canonical JSON model (from `frontend/src/utils/canonicalHash.js`)

JavaScript values reachable by `canonicalizeJSON` are modelled by `JVal`.
Finite numbers are modelled as integers (the only numbers appearing in
fact records — `version`, block numbers — are integers, and
`JSON.stringify` prints them as plain decimal strings); the non-finite
doubles `NaN`, `Infinity` and `-Infinity` are modelled explicitly because
`JSON.stringify` serializes them as `null`. -/

/-- JavaScript number as seen by `JSON.stringify`. -/
inductive JSNum
| fin (n : Int)
| nan
| inf
| neginf
deriving DecidableEq

/-- JSON-like JavaScript value. -/
inductive JVal
| null
| bool (b : Bool)
| num (n : JSNum)
| str (s : String)
| arr (elems : List JVal)
| obj (fields : List (String × JVal))

/-- Lowercase hexadecimal digit, as used by `JSON.stringify`'s \u escapes
and by hex encodings of hashes. -/
def hexDigit (n : Nat) : Char :=
  if n < 10 then Char.ofNat (48 + n) else Char.ofNat (87 + n)

/-- Escape one character exactly as `JSON.stringify` (ECMA-262
`QuoteJSONString`) does: quote and backslash get a backslash escape, the
control characters BS HT LF FF CR get their short escapes, all other
control characters below U+0020 get a four-digit `\u00xx` escape, and
every other character is emitted unchanged. -/
def escChar (c : Char) : List Char :=
  if c = '"' then ['\\', '"']
  else if c = '\\' then ['\\', '\\']
  else if c.toNat = 8 then ['\\', 'b']
  else if c.toNat = 9 then ['\\', 't']
  else if c.toNat = 10 then ['\\', 'n']
  else if c.toNat = 12 then ['\\', 'f']
  else if c.toNat = 13 then ['\\', 'r']
  else if c.toNat < 32 then
    ['\\', 'u', '0', '0', hexDigit (c.toNat / 16), hexDigit (c.toNat % 16)]
  else [c]

/-- JSON string-body escaping: concatenation of per-character escapes. -/
def escape (s : List Char) : List Char := (s.map escChar).flatten

/-- Quoted JSON string: `"` body `"`. -/
def qstr (s : List Char) : List Char := '"' :: escape s ++ ['"']

/-- Decimal representation of a JavaScript number under `JSON.stringify`:
integers print as decimal digits, the non-finite values print as `null`. -/
def numChars : JSNum → List Char
| .fin n => (toString n).data
| .nan => "null".data
| .inf => "null".data
| .neginf => "null".data

/-- Key order used by `Object.keys(obj).sort()`: lexicographic string
comparison on the keys of the pairs. -/
def keyLE (p q : String × JVal) : Prop := p.1 ≤ q.1

instance : DecidableRel keyLE := fun p q =>
  inferInstanceAs (Decidable (p.1 ≤ q.1))

instance : IsTotal (String × JVal) keyLE :=
  ⟨fun p q => le_total p.1 q.1⟩

instance : IsTrans (String × JVal) keyLE :=
  ⟨fun _ _ _ h1 h2 => le_trans h1 h2⟩

/-- Comma-separated concatenation, the `.join(',')` of the source. -/
def joinComma : List (List Char) → List Char
| [] => []
| [x] => x
| x :: xs => x ++ ',' :: joinComma xs

mutual

/-- Serialization of `canonicalizeJSON` as a character list:
primitives via `JSON.stringify`, arrays in input order, objects with keys
sorted and each pair rendered as `"key":value` (the key is interpolated
raw, exactly as the source's template literal does).  `canonList` and
`canonPairs` are the two `map`s of the source, spelled out so the mutual
recursion is structural enough for the termination checker. -/
def canon : JVal → List Char
| .null => "null".data
| .bool true => "true".data
| .bool false => "false".data
| .num n => numChars n
| .str s => qstr s.data
| .arr vs => '[' :: joinComma (canonList vs) ++ [']']
| .obj fs =>
  Char.ofNat 123 :: joinComma (canonPairs (fs.insertionSort keyLE)) ++
    [Char.ofNat 125]
termination_by v => sizeOf v
decreasing_by
all_goals simp_wf
all_goals first
| omega
| (have hp := (List.perm_insertionSort keyLE fs).sizeOf_eq_sizeOf
   omega)

/-- The element-wise serialization of an array value. -/
def canonList : List JVal → List (List Char)
| [] => []
| v :: vs => canon v :: canonList vs
termination_by vs => sizeOf vs

/-- The pair-wise serialization of an object's sorted key/value list. -/
def canonPairs : List (String × JVal) → List (List Char)
| [] => []
| (k, v) :: ps => ('"' :: k.data ++ '"' :: ':' :: canon v) :: canonPairs ps
termination_by ps => sizeOf ps

end

/-- The `canonicalizeJSON` function of the source, producing a string. -/
def canonicalizeJSON (v : JVal) : String := String.mk (canon v)

/-! ## SHA-256 (FIPS 180-4), over byte lists, with `Nat` arithmetic
reduced mod 2^32 wherever the source operates on 32-bit words. -/

/-- Modulus of 32-bit words. -/
def m32 : Nat := 4294967296

/-- Right rotation of a 32-bit word. -/
def rotr (n x : Nat) : Nat := ((x >>> n) ||| (x <<< (32 - n))) % m32

/-- Big sigma-0 round function. -/
def bsig0 (x : Nat) : Nat := rotr 2 x ^^^ rotr 13 x ^^^ rotr 22 x

/-- Big sigma-1 round function. -/
def bsig1 (x : Nat) : Nat := rotr 6 x ^^^ rotr 11 x ^^^ rotr 25 x

/-- Small sigma-0 schedule function. -/
def ssig0 (x : Nat) : Nat := rotr 7 x ^^^ rotr 18 x ^^^ (x >>> 3)

/-- Small sigma-1 schedule function. -/
def ssig1 (x : Nat) : Nat := rotr 17 x ^^^ rotr 19 x ^^^ (x >>> 10)

/-- Choice function. -/
def chf (e f g : Nat) : Nat := (e &&& f) ^^^ ((e ^^^ (m32 - 1)) &&& g)

/-- Majority function. -/
def majf (a b c : Nat) : Nat := (a &&& b) ^^^ (a &&& c) ^^^ (b &&& c)

/-- The 64 SHA-256 round constants. -/
def sha256K : List Nat :=
  [1116352408, 1899447441, 3049323471, 3921009573, 961987163,
   1508970993, 2453635748, 2870763221, 3624381080, 310598401,
   607225278, 1426881987, 1925078388, 2162078206, 2614888103,
   3248222580, 3835390401, 4022224774, 264347078, 604807628,
   770255983, 1249150122, 1555081692, 1996064986, 2554220882,
   2821834349, 2952996808, 3210313671, 3336571891, 3584528711,
   113926993, 338241895, 666307205, 773529912, 1294757372,
   1396182291, 1695183700, 1986661051, 2177026350, 2456956037,
   2730485921, 2820302411, 3259730800, 3345764771, 3516065817,
   3600352804, 4094571909, 275423344, 430227734, 506948616,
   659060556, 883997877, 958139571, 1322822218, 1537002063,
   1747873779, 1955562222, 2024104815, 2227730452, 2361852424,
   2428436474, 2756734187, 3204031479, 3329325298]

/-- The initial SHA-256 state. -/
def sha256H0 : List Nat :=
  [1779033703, 3144134277, 1013904242, 2773480762, 1359893119,
   2600822924, 528734635, 1541459225]

/-- Big-endian 8-byte encoding of a natural number. -/
def beBytes8 (n : Nat) : List Nat :=
  (List.range 8).map (fun i => (n >>> ((7 - i) * 8)) % 256)

/-- SHA-256 padding: a 0x80 byte, zero bytes up to 56 mod 64, then the
bit length as an 8-byte big-endian integer. -/
def sha256pad (msg : List Nat) : List Nat :=
  let len := msg.length
  let k := (56 + 64 - ((len + 1) % 64)) % 64
  msg ++ 0x80 :: List.replicate k 0 ++ beBytes8 (len * 8)

/-- Split a byte list into 64-byte blocks; the fuel argument (instantiated
with the length) makes the recursion structural. -/
def chunks64Aux : Nat → List Nat → List (List Nat)
| 0, _ => []
| _, [] => []
| fuel + 1, bs => bs.take 64 :: chunks64Aux fuel (bs.drop 64)

/-- Split a byte list into 64-byte blocks. -/
def chunks64 (bs : List Nat) : List (List Nat) := chunks64Aux bs.length bs

/-- The 16 initial message-schedule words of one block (big-endian). -/
def words16 (block : List Nat) : List Nat :=
  (List.range 16).map (fun i =>
    (block.getD (4 * i) 0 <<< 24) + (block.getD (4 * i + 1) 0 <<< 16) +
    (block.getD (4 * i + 2) 0 <<< 8) + block.getD (4 * i + 3) 0)

/-- Extend the message schedule by `n` further words. -/
def extendW : Nat → List Nat → List Nat
| 0, w => w
| n + 1, w =>
  extendW n (w ++ [(ssig1 (w.getD (w.length - 2) 0) +
    w.getD (w.length - 7) 0 + ssig0 (w.getD (w.length - 15) 0) +
    w.getD (w.length - 16) 0) % m32])

/-- One compression round: `st8` is the working state `[a,b,c,d,e,f,g,h]`,
`kw` the round constant paired with the schedule word. -/
def sha256Round (st8 : List Nat) (kw : Nat × Nat) : List Nat :=
  match st8 with
  | [a, b, c, d, e, f, g, h] =>
    let t1 := (h + bsig1 e + chf e f g + kw.1 + kw.2) % m32
    let t2 := (bsig0 a + majf a b c) % m32
    [(t1 + t2) % m32, a, b, c, (d + t1) % m32, e, f, g]
  | other => other

/-- Compress one 64-byte block into the hash state. -/
def sha256Block (hs : List Nat) (block : List Nat) : List Nat :=
  let w := extendW 48 (words16 block)
  let st := (sha256K.zip w).foldl sha256Round hs
  (hs.zip st).map (fun p => (p.1 + p.2) % m32)

/-- SHA-256 digest of a byte list, as 32 bytes. -/
def sha256 (msg : List Nat) : List Nat :=
  let hf := (chunks64 (sha256pad msg)).foldl sha256Block sha256H0
  (hf.map (fun x =>
    [(x >>> 24) % 256, (x >>> 16) % 256, (x >>> 8) % 256, x % 256])).flatten

/-- UTF-8 encoding of one character. -/
def utf8Char (c : Char) : List Nat :=
  let n := c.toNat
  if n < 0x80 then [n]
  else if n < 0x800 then
    [0xC0 ||| (n >>> 6), 0x80 ||| (n &&& 0x3F)]
  else if n < 0x10000 then
    [0xE0 ||| (n >>> 12), 0x80 ||| ((n >>> 6) &&& 0x3F),
     0x80 ||| (n &&& 0x3F)]
  else
    [0xF0 ||| (n >>> 18), 0x80 ||| ((n >>> 12) &&& 0x3F),
     0x80 ||| ((n >>> 6) &&& 0x3F), 0x80 ||| (n &&& 0x3F)]

/-- UTF-8 encoding of a string, the model of `TextEncoder().encode`. -/
def utf8Bytes (s : String) : List Nat := (s.data.map utf8Char).flatten

/-- Lowercase hex encoding of a byte list. -/
def bytesToHex (bs : List Nat) : List Char :=
  (bs.map (fun b => [hexDigit (b / 16), hexDigit (b % 16)])).flatten

/-- Hex digest with the `0x` prefix, as returned by viem's `sha256` and by
`computeFactHash` of the registration script. -/
def sha256hex (s : String) : String :=
  "0x" ++ String.mk (bytesToHex (sha256 (utf8Bytes s)))

/-! ## Frontend fact hashing (from `hashFactJSON`) -/

/-- Evidence entry of a fact record (`{url, title, checksum, accessed_at}`
tuples, all strings). -/
structure EvidenceItem where
  url : String
  title : String
  checksum : String
  accessed_at : String
deriving DecidableEq, Repr

/-- JSON object for one evidence entry. -/
def EvidenceItem.toJVal (e : EvidenceItem) : JVal :=
  .obj [("url", .str e.url), ("title", .str e.title),
        ("checksum", .str e.checksum), ("accessed_at", .str e.accessed_at)]

/-- Input record of `hashFactJSON` (the `factData` argument), with all
fields of a FactRecord.  Note that `hashFactJSON` reads only some of
them. -/
structure FactData where
  fact_id : String
  claim_text : String
  verdict : String
  severity : String
  summary : String
  evidence : List EvidenceItem
  topics : List String
  issued_at : String
  last_reviewed_at : String
  version : Nat
  status : String
deriving DecidableEq, Repr

/-- The object built by `hashFactJSON` before canonicalization, with the
source's insertion order.  Faithful to the source: `last_reviewed_at` is
populated from `factData.issued_at`, `version` is the literal `1`, and
`status` is the literal string "active" — the input's `last_reviewed_at`,
`version` and `status` fields are never read. -/
def factObj (fd : FactData) : JVal :=
  .obj [("id", .str fd.fact_id),
        ("claim", .str fd.claim_text),
        ("verdict", .str fd.verdict),
        ("severity", .str fd.severity),
        ("summary", .str fd.summary),
        ("evidence", .arr (fd.evidence.map EvidenceItem.toJVal)),
        ("topics", .arr (fd.topics.map JVal.str)),
        ("issued_at", .str fd.issued_at),
        ("last_reviewed_at", .str fd.issued_at),
        ("version", .num (.fin 1)),
        ("status", .str "active")]

/-- The `hashFactJSON` function: canonicalize, UTF-8 encode, SHA-256,
0x-prefixed hex (viem's `sha256`). -/
def hashFactJSON (fd : FactData) : String :=
  sha256hex (canonicalizeJSON (factObj fd))

/-! ## C4: canonicalization is independent of key insertion order -/

instance : IsAntisymm (String × JVal) (fun p q => p.1 < q.1) :=
  ⟨fun _ _ h1 h2 => absurd h1 (lt_asymm h2)⟩

/-- Sorting by key sends key-permutation-equivalent pair lists (with
duplicate-free keys) to the same list. -/
theorem insertionSort_eq_of_perm (l1 l2 : List (String × JVal))
    (hp : l1.Perm l2) (hnd : (l1.map Prod.fst).Nodup) :
    l1.insertionSort keyLE = l2.insertionSort keyLE := by
  have hp1 := List.perm_insertionSort keyLE l1
  have hp2 := List.perm_insertionSort keyLE l2
  have hperm : (l1.insertionSort keyLE).Perm (l2.insertionSort keyLE) :=
    hp1.trans (hp.trans hp2.symm)
  have hs1 := List.sorted_insertionSort keyLE l1
  have hs2 := List.sorted_insertionSort keyLE l2
  have hnd1 : ((l1.insertionSort keyLE).map Prod.fst).Nodup :=
    ((hp1.map Prod.fst).nodup_iff).mpr hnd
  have hnd2 : ((l2.insertionSort keyLE).map Prod.fst).Nodup :=
    ((hperm.map Prod.fst).nodup_iff).mp hnd1
  have hst1 : (l1.insertionSort keyLE).Pairwise (fun p q => p.1 < q.1) :=
    (hs1.and (List.pairwise_map.mp hnd1)).imp
      (fun hab => lt_of_le_of_ne hab.1 hab.2)
  have hst2 : (l2.insertionSort keyLE).Pairwise (fun p q => p.1 < q.1) :=
    (hs2.and (List.pairwise_map.mp hnd2)).imp
      (fun hab => lt_of_le_of_ne hab.1 hab.2)
  exact List.eq_of_perm_of_sorted hperm hst1 hst2

/-- C4.  Two records with the same fields and values, differing only in
object-key insertion order (a permutation of the key/value pairs, keys
duplicate-free), canonicalize to the same string, hence hash to the same
digest.  Confirms the claim. -/
theorem C4_canonicalization_order_independent (l1 l2 : List (String × JVal))
    (hp : l1.Perm l2) (hnd : (l1.map Prod.fst).Nodup) :
    canonicalizeJSON (.obj l1) = canonicalizeJSON (.obj l2) ∧
    sha256hex (canonicalizeJSON (.obj l1)) =
      sha256hex (canonicalizeJSON (.obj l2)) := by
  have hc : canon (.obj l1) = canon (.obj l2) := by
    simp only [canon]
    rw [insertionSort_eq_of_perm l1 l2 hp hnd]
  have hs : canonicalizeJSON (.obj l1) = canonicalizeJSON (.obj l2) :=
    congrArg String.mk hc
  exact ⟨hs, congrArg sha256hex hs⟩

/-- Witness for C4 on a two-field object given in both insertion orders. -/
theorem C4_witness :
    ([(("b", JVal.null)), (("a", JVal.num (.fin 1)))].Perm
        [(("a", JVal.num (.fin 1))), (("b", JVal.null))] ∧
      ([(("b", JVal.null)), (("a", JVal.num (.fin 1)))].map
        Prod.fst).Nodup) ∧
    canonicalizeJSON (.obj [("b", .null), ("a", .num (.fin 1))]) =
      canonicalizeJSON (.obj [("a", .num (.fin 1)), ("b", .null)]) ∧
    sha256hex (canonicalizeJSON (.obj [("b", .null), ("a", .num (.fin 1))]))
      = sha256hex
        (canonicalizeJSON (.obj [("a", .num (.fin 1)), ("b", .null)])) :=
  ⟨⟨List.Perm.swap ("a", JVal.num (.fin 1)) ("b", JVal.null) [],
      by decide⟩,
    C4_canonicalization_order_independent _ _
      (List.Perm.swap ("a", JVal.num (.fin 1)) ("b", JVal.null) [])
      (by decide)⟩

/-! ## C6: behaviour of the canonicalizer on non-finite numbers -/

/-- Inserting a pair into a sorted pair list depends only on the key;
values with equal serializations give equal serialized results. -/
theorem canonPairs_orderedInsert_congr (k : String) (v w : JVal)
    (hvw : canon v = canon w) (l : List (String × JVal)) :
    canonPairs (List.orderedInsert keyLE (k, v) l) =
      canonPairs (List.orderedInsert keyLE (k, w) l) := by
  induction l with
  | nil => simp [List.orderedInsert, canonPairs, hvw]
  | cons p t ih =>
    obtain ⟨pk, pv⟩ := p
    by_cases hc : keyLE (k, v) (pk, pv)
    · have hc2 : keyLE (k, w) (pk, pv) := hc
      rw [List.orderedInsert, if_pos hc, List.orderedInsert, if_pos hc2]
      simp [canonPairs, hvw]
    · have hc2 : ¬keyLE (k, w) (pk, pv) := hc
      rw [List.orderedInsert, if_neg hc, List.orderedInsert, if_neg hc2]
      simp [canonPairs, ih]

/-- Canonicalization of an object is unchanged when one field's value is
replaced by a value with the same serialization. -/
theorem canon_obj_head_congr (k : String) (v w : JVal)
    (hvw : canon v = canon w) (fs : List (String × JVal)) :
    canon (.obj ((k, v) :: fs)) = canon (.obj ((k, w) :: fs)) := by
  simp only [canon, List.insertionSort]
  rw [canonPairs_orderedInsert_congr k v w hvw]

/-- C6 (amended).  `canonicalizeJSON` never fails: it is a total function.
A non-finite number (NaN, Infinity, -Infinity) is silently serialized as
`null` — `JSON.stringify` renders all three as the four characters
`null`, indistinguishable from a genuine null value — and a record in
which a field holds a non-finite number canonicalizes to exactly the
same string as the record with `null` in that field.  (An absent
required field is likewise silently omitted: the serializer runs over
whatever keys are present.) -/
theorem C6_nonfinite_serialized_as_null :
    canonicalizeJSON (.num .nan) = "null" ∧
    canonicalizeJSON (.num .inf) = "null" ∧
    canonicalizeJSON (.num .neginf) = "null" ∧
    ∀ (fs : List (String × JVal)) (k : String),
      canonicalizeJSON (.obj ((k, .num .nan) :: fs)) =
        canonicalizeJSON (.obj ((k, .null) :: fs)) := by
  refine ⟨?_, ?_, ?_, ?_⟩
  · simp [canonicalizeJSON, canon, numChars]
  · simp [canonicalizeJSON, canon, numChars]
  · simp [canonicalizeJSON, canon, numChars]
  · intro fs k
    unfold canonicalizeJSON
    rw [canon_obj_head_congr k (.num .nan) .null (by simp [canon, numChars])]

/-- Counterexample to C6 as stated: a record whose `version` field is NaN
is not rejected — `canonicalizeJSON` silently serializes it, producing
exactly the canonical string of the record with `null` in that field. -/
theorem C6_counterexample :
    canonicalizeJSON (.obj [("version", .num .nan)]) =
      canonicalizeJSON (.obj [("version", .null)]) :=
  (C6_nonfinite_serialized_as_null.2.2.2 [] "version")

/-! ## Injectivity of the JSON string escape (towards C2) -/

/-- Value of a lowercase hex digit character. -/
def unhex (c : Char) : Nat :=
  if c.toNat < 58 then c.toNat - 48 else c.toNat - 87

/-- Decoder of the first escaped character of a JSON string body; inverse
of `escChar`. -/
def decodeFirst : List Char → Option (Char × List Char)
| [] => none
| c :: rest =>
  if c = '\\' then
    match rest with
    | '"' :: r => some ('"', r)
    | '\\' :: r => some ('\\', r)
    | 'b' :: r => some (Char.ofNat 8, r)
    | 't' :: r => some (Char.ofNat 9, r)
    | 'n' :: r => some (Char.ofNat 10, r)
    | 'f' :: r => some (Char.ofNat 12, r)
    | 'r' :: r => some (Char.ofNat 13, r)
    | 'u' :: '0' :: '0' :: h1 :: h0 :: r =>
      some (Char.ofNat (16 * unhex h1 + unhex h0), r)
    | _ => none
  else some (c, rest)

theorem unhex_hexDigit (n : Nat) (h : n < 16) : unhex (hexDigit n) = n := by
  interval_cases n <;> decide

theorem decodeFirst_escChar (c : Char) (r : List Char) :
    decodeFirst (escChar c ++ r) = some (c, r) := by
  unfold escChar
  by_cases h1 : c = '"'
  · subst h1; rfl
  rw [if_neg h1]
  by_cases h2 : c = '\\'
  · subst h2; rfl
  rw [if_neg h2]
  by_cases h3 : c.toNat = 8
  · rw [if_pos h3]
    have hc : Char.ofNat 8 = c := by rw [← h3, Char.ofNat_toNat]
    show some (Char.ofNat 8, r) = some (c, r)
    rw [hc]
  rw [if_neg h3]
  by_cases h4 : c.toNat = 9
  · rw [if_pos h4]
    have hc : Char.ofNat 9 = c := by rw [← h4, Char.ofNat_toNat]
    show some (Char.ofNat 9, r) = some (c, r)
    rw [hc]
  rw [if_neg h4]
  by_cases h5 : c.toNat = 10
  · rw [if_pos h5]
    have hc : Char.ofNat 10 = c := by rw [← h5, Char.ofNat_toNat]
    show some (Char.ofNat 10, r) = some (c, r)
    rw [hc]
  rw [if_neg h5]
  by_cases h6 : c.toNat = 12
  · rw [if_pos h6]
    have hc : Char.ofNat 12 = c := by rw [← h6, Char.ofNat_toNat]
    show some (Char.ofNat 12, r) = some (c, r)
    rw [hc]
  rw [if_neg h6]
  by_cases h7 : c.toNat = 13
  · rw [if_pos h7]
    have hc : Char.ofNat 13 = c := by rw [← h7, Char.ofNat_toNat]
    show some (Char.ofNat 13, r) = some (c, r)
    rw [hc]
  rw [if_neg h7]
  by_cases h8 : c.toNat < 32
  · rw [if_pos h8]
    show some (Char.ofNat
      (16 * unhex (hexDigit (c.toNat / 16)) +
        unhex (hexDigit (c.toNat % 16))), r) = some (c, r)
    rw [unhex_hexDigit (c.toNat / 16) (by omega),
      unhex_hexDigit (c.toNat % 16) (Nat.mod_lt _ (by omega)),
      Nat.div_add_mod c.toNat 16, Char.ofNat_toNat]
  · rw [if_neg h8]
    show decodeFirst (c :: r) = some (c, r)
    unfold decodeFirst
    dsimp only
    rw [if_neg h2]

/-- Every per-character escape is non-empty and never starts with an
unescaped quote. -/
theorem escChar_head (c : Char) :
    ∃ d t0, escChar c = d :: t0 ∧ d ≠ '"' := by
  unfold escChar
  by_cases h1 : c = '"'
  · rw [if_pos h1]; exact ⟨'\\', _, rfl, by decide⟩
  rw [if_neg h1]
  by_cases h2 : c = '\\'
  · rw [if_pos h2]; exact ⟨'\\', _, rfl, by decide⟩
  rw [if_neg h2]
  by_cases h3 : c.toNat = 8
  · rw [if_pos h3]; exact ⟨'\\', _, rfl, by decide⟩
  rw [if_neg h3]
  by_cases h4 : c.toNat = 9
  · rw [if_pos h4]; exact ⟨'\\', _, rfl, by decide⟩
  rw [if_neg h4]
  by_cases h5 : c.toNat = 10
  · rw [if_pos h5]; exact ⟨'\\', _, rfl, by decide⟩
  rw [if_neg h5]
  by_cases h6 : c.toNat = 12
  · rw [if_pos h6]; exact ⟨'\\', _, rfl, by decide⟩
  rw [if_neg h6]
  by_cases h7 : c.toNat = 13
  · rw [if_pos h7]; exact ⟨'\\', _, rfl, by decide⟩
  rw [if_neg h7]
  by_cases h8 : c.toNat < 32
  · rw [if_pos h8]; exact ⟨'\\', _, rfl, by decide⟩
  · rw [if_neg h8]; exact ⟨c, [], rfl, h1⟩

theorem escape_nil : escape [] = [] := rfl

theorem escape_cons (c : Char) (cs : List Char) :
    escape (c :: cs) = escChar c ++ escape cs := rfl

/-- Unique decodability of escaped string bodies terminated by an
unescaped quote. -/
theorem escape_quote_inj : ∀ (xs ys r s : List Char),
    escape xs ++ '"' :: r = escape ys ++ '"' :: s → xs = ys ∧ r = s
  | [], [], r, s, h => by
    simp only [escape_nil, List.nil_append] at h
    exact ⟨rfl, (List.cons.inj h).2⟩
  | [], y :: ys, r, s, h => by
    simp only [escape_nil, escape_cons, List.nil_append, List.append_assoc]
      at h
    obtain ⟨d, t0, hd, hdq⟩ := escChar_head y
    rw [hd, List.cons_append] at h
    exact absurd (List.cons.inj h).1 (fun he => hdq he.symm)
  | x :: xs, [], r, s, h => by
    simp only [escape_nil, escape_cons, List.nil_append, List.append_assoc]
      at h
    obtain ⟨d, t0, hd, hdq⟩ := escChar_head x
    rw [hd, List.cons_append] at h
    exact absurd (List.cons.inj h).1 hdq
  | x :: xs, y :: ys, r, s, h => by
    simp only [escape_cons, List.append_assoc] at h
    have hdec := congrArg decodeFirst h
    rw [decodeFirst_escChar, decodeFirst_escChar] at hdec
    obtain ⟨hxy, htail⟩ := Prod.mk.inj (Option.some.inj hdec)
    obtain ⟨hxs, hr⟩ := escape_quote_inj xs ys r s htail
    exact ⟨by rw [hxy, hxs], hr⟩

/-- Unique decodability of quoted JSON strings: equal continuations force
equal string bodies and equal rests. -/
theorem qstr_step (x y r s : List Char)
    (h : qstr x ++ r = qstr y ++ s) : x = y ∧ r = s := by
  unfold qstr at h
  simp only [List.cons_append, List.append_assoc, List.singleton_append]
    at h
  exact escape_quote_inj x y r s (List.cons.inj h).2

/-- Strings with equal character lists are equal. -/
theorem str_data_inj {a b : String} (h : a.data = b.data) : a = b := by
  cases a; cases b; exact congrArg String.mk h

/-! ## Unique decodability of canonical arrays (towards C2) -/

/-- Continuation form of a comma-separated tail of serialized array
elements, ending with the closing bracket and a rest. -/
def sepJoin {α : Type} (body : α → List Char) :
    List α → List Char → List Char
| [], r => ']' :: r
| e :: es, r => ',' :: (body e ++ sepJoin body es r)

theorem joinComma_cons2 (x y : List Char) (l : List (List Char)) :
    joinComma (x :: y :: l) = x ++ ',' :: joinComma (y :: l) := rfl

theorem joinComma_arr_shape {α : Type} (body : α → List Char)
    (x : List Char) (es : List α) (r : List Char) :
    joinComma (x :: es.map body) ++ ']' :: r = x ++ sepJoin body es r := by
  induction es generalizing x with
  | nil => simp [joinComma, sepJoin]
  | cons e es ih =>
    show joinComma (x :: body e :: es.map body) ++ ']' :: r = _
    rw [joinComma_cons2, List.append_assoc, List.cons_append, ih (body e)]
    rfl

theorem sep_step {α : Type} (body : α → List Char)
    (hstep : ∀ (e1 e2 : α) (r s : List Char),
      body e1 ++ r = body e2 ++ s → e1 = e2 ∧ r = s) :
    ∀ (es1 es2 : List α) (r s : List Char),
      sepJoin body es1 r = sepJoin body es2 s → es1 = es2 ∧ r = s
  | [], [], r, s, h => ⟨rfl, (List.cons.inj h).2⟩
  | [], e :: es, r, s, h => by
    exact absurd (List.cons.inj h).1 (by decide)
  | e :: es, [], r, s, h => by
    exact absurd (List.cons.inj h).1 (by decide)
  | e1 :: es1, e2 :: es2, r, s, h => by
    have h2 := (List.cons.inj h).2
    obtain ⟨he, ht⟩ := hstep e1 e2 _ _ h2
    obtain ⟨hes, hr⟩ := sep_step body hstep es1 es2 r s ht
    exact ⟨by rw [he, hes], hr⟩

/-- Unique decodability of a serialized array `'[' … ']'` followed by a
rest, given unique decodability of the element serialization and that no
element serialization starts with `']'`. -/
theorem arr_step {α : Type} (body : α → List Char)
    (hstep : ∀ (e1 e2 : α) (r s : List Char),
      body e1 ++ r = body e2 ++ s → e1 = e2 ∧ r = s)
    (hhead : ∀ e : α, ∃ d t0, body e = d :: t0 ∧ d ≠ ']')
    (es1 es2 : List α) (r s : List Char)
    (h : joinComma (es1.map body) ++ (']' :: r) =
      joinComma (es2.map body) ++ (']' :: s)) :
    es1 = es2 ∧ r = s := by
  have h2 := h
  match es1, es2 with
  | [], [] =>
    simp only [List.map_nil, joinComma, List.nil_append] at h2
    exact ⟨rfl, (List.cons.inj h2).2⟩
  | [], e :: es =>
    simp only [List.map_nil, List.map_cons, joinComma, List.nil_append]
      at h2
    rw [joinComma_arr_shape body (body e) es s] at h2
    obtain ⟨d, t0, hd, hdq⟩ := hhead e
    rw [hd, List.cons_append] at h2
    exact absurd (List.cons.inj h2).1 (fun he => hdq he.symm)
  | e :: es, [] =>
    simp only [List.map_nil, List.map_cons, joinComma, List.nil_append]
      at h2
    rw [joinComma_arr_shape body (body e) es r] at h2
    obtain ⟨d, t0, hd, hdq⟩ := hhead e
    rw [hd, List.cons_append] at h2
    exact absurd (List.cons.inj h2).1 hdq
  | e1 :: es1, e2 :: es2 =>
    simp only [List.map_cons] at h2
    rw [joinComma_arr_shape body (body e1) es1 r,
      joinComma_arr_shape body (body e2) es2 s] at h2
    obtain ⟨he, ht⟩ := hstep e1 e2 _ _ h2
    obtain ⟨hes, hr⟩ := sep_step body hstep es1 es2 r s ht
    exact ⟨by rw [he, hes], hr⟩

/-! ## Explicit form of the canonical fact serialization (towards C2) -/

/-- Opening brace character. -/
def lbChar : Char := Char.ofNat 123

/-- Closing brace character. -/
def rbChar : Char := Char.ofNat 125

/-- Sorting the evidence-entry keys. -/
theorem evPairs_sort (a b c d : JVal) :
    ([("url", a), ("title", b), ("checksum", c),
      ("accessed_at", d)].insertionSort keyLE)
    = [("accessed_at", d), ("checksum", c), ("title", b), ("url", a)] := by
  have hperm : ([("url", a), ("title", b), ("checksum", c),
      ("accessed_at", d)] : List (String × JVal)).Perm
      [("accessed_at", d), ("checksum", c), ("title", b), ("url", a)] := by
    have p1 : ([("url", a), ("title", b), ("checksum", c)] ++
        ("accessed_at", d) :: [] : List (String × JVal)).Perm
        (("accessed_at", d) ::
          ([("url", a), ("title", b), ("checksum", c)] ++ [])) :=
      List.perm_middle
    simp only [List.append_nil] at p1
    refine p1.trans (List.Perm.cons _ ?_)
    have p2 : ([("url", a), ("title", b)] ++ ("checksum", c) :: [] :
        List (String × JVal)).Perm
        (("checksum", c) :: ([("url", a), ("title", b)] ++ [])) :=
      List.perm_middle
    simp only [List.append_nil] at p2
    refine p2.trans (List.Perm.cons _ ?_)
    exact List.Perm.swap _ _ _
  rw [insertionSort_eq_of_perm _ _ hperm
    (show (["url", "title", "checksum", "accessed_at"] :
      List String).Nodup from by decide)]
  apply List.Sorted.insertionSort_eq
  simp [List.sorted_cons, keyLE]
  decide

/-- Sorting the eleven fact-record keys. -/
theorem factPairs_sort (i cl vd sv su ev tp ia lr ve st : JVal) :
    ([("id", i), ("claim", cl), ("verdict", vd), ("severity", sv),
      ("summary", su), ("evidence", ev), ("topics", tp), ("issued_at", ia),
      ("last_reviewed_at", lr), ("version", ve),
      ("status", st)].insertionSort keyLE)
    = [("claim", cl), ("evidence", ev), ("id", i), ("issued_at", ia),
       ("last_reviewed_at", lr), ("severity", sv), ("status", st),
       ("summary", su), ("topics", tp), ("verdict", vd),
       ("version", ve)] := by
  have hperm : ([("id", i), ("claim", cl), ("verdict", vd),
      ("severity", sv), ("summary", su), ("evidence", ev), ("topics", tp),
      ("issued_at", ia), ("last_reviewed_at", lr), ("version", ve),
      ("status", st)] : List (String × JVal)).Perm
      [("claim", cl), ("evidence", ev), ("id", i), ("issued_at", ia),
       ("last_reviewed_at", lr), ("severity", sv), ("status", st),
       ("summary", su), ("topics", tp), ("verdict", vd),
       ("version", ve)] := by
    have p1 : ([("id", i)] ++ ("claim", cl) :: [("verdict", vd),
        ("severity", sv), ("summary", su), ("evidence", ev),
        ("topics", tp), ("issued_at", ia), ("last_reviewed_at", lr),
        ("version", ve), ("status", st)] : List (String × JVal)).Perm
        (("claim", cl) :: ([("id", i)] ++ [("verdict", vd),
        ("severity", sv), ("summary", su), ("evidence", ev),
        ("topics", tp), ("issued_at", ia), ("last_reviewed_at", lr),
        ("version", ve), ("status", st)])) := List.perm_middle
    refine p1.trans (List.Perm.cons _ ?_)
    have p2 : ([("id", i), ("verdict", vd), ("severity", sv),
        ("summary", su)] ++ ("evidence", ev) :: [("topics", tp),
        ("issued_at", ia), ("last_reviewed_at", lr), ("version", ve),
        ("status", st)] : List (String × JVal)).Perm
        (("evidence", ev) :: ([("id", i), ("verdict", vd),
        ("severity", sv), ("summary", su)] ++ [("topics", tp),
        ("issued_at", ia), ("last_reviewed_at", lr), ("version", ve),
        ("status", st)])) := List.perm_middle
    refine p2.trans (List.Perm.cons _ ?_)
    refine List.Perm.cons _ ?_
    have p4 : ([("verdict", vd), ("severity", sv), ("summary", su),
        ("topics", tp)] ++ ("issued_at", ia) :: [("last_reviewed_at", lr),
        ("version", ve), ("status", st)] : List (String × JVal)).Perm
        (("issued_at", ia) :: ([("verdict", vd), ("severity", sv),
        ("summary", su), ("topics", tp)] ++ [("last_reviewed_at", lr),
        ("version", ve), ("status", st)])) := List.perm_middle
    refine p4.trans (List.Perm.cons _ ?_)
    have p5 : ([("verdict", vd), ("severity", sv), ("summary", su),
        ("topics", tp)] ++ ("last_reviewed_at", lr) :: [("version", ve),
        ("status", st)] : List (String × JVal)).Perm
        (("last_reviewed_at", lr) :: ([("verdict", vd), ("severity", sv),
        ("summary", su), ("topics", tp)] ++ [("version", ve),
        ("status", st)])) := List.perm_middle
    refine p5.trans (List.Perm.cons _ ?_)
    have p6 : ([("verdict", vd)] ++ ("severity", sv) :: [("summary", su),
        ("topics", tp), ("version", ve), ("status", st)] :
        List (String × JVal)).Perm
        (("severity", sv) :: ([("verdict", vd)] ++ [("summary", su),
        ("topics", tp), ("version", ve), ("status", st)])) :=
      List.perm_middle
    refine p6.trans (List.Perm.cons _ ?_)
    have p7 : ([("verdict", vd), ("summary", su), ("topics", tp),
        ("version", ve)] ++ ("status", st) :: [] :
        List (String × JVal)).Perm
        (("status", st) :: ([("verdict", vd), ("summary", su),
        ("topics", tp), ("version", ve)] ++ [])) := List.perm_middle
    simp only [List.append_nil] at p7
    refine p7.trans (List.Perm.cons _ ?_)
    have p8 : ([("verdict", vd)] ++ ("summary", su) :: [("topics", tp),
        ("version", ve)] : List (String × JVal)).Perm
        (("summary", su) :: ([("verdict", vd)] ++ [("topics", tp),
        ("version", ve)])) := List.perm_middle
    refine p8.trans (List.Perm.cons _ ?_)
    have p9 : ([("verdict", vd)] ++ ("topics", tp) :: [("version", ve)] :
        List (String × JVal)).Perm
        (("topics", tp) :: ([("verdict", vd)] ++ [("version", ve)])) :=
      List.perm_middle
    exact p9.trans (List.Perm.cons _ (List.Perm.refl _))
  rw [insertionSort_eq_of_perm _ _ hperm
    (show (["id", "claim", "verdict", "severity", "summary", "evidence",
      "topics", "issued_at", "last_reviewed_at", "version", "status"] :
      List String).Nodup from by decide)]
  apply List.Sorted.insertionSort_eq
  simp [List.sorted_cons, keyLE]
  decide

/-- Serialized evidence entry, written as literal segments between the
variable string fields (keys sorted: accessed_at, checksum, title, url). -/
def evBody (e : EvidenceItem) : List Char :=
  ([lbChar, '"'] ++ "accessed_at".data ++ ['"', ':']) ++
  qstr e.accessed_at.data ++
  ([',', '"'] ++ "checksum".data ++ ['"', ':']) ++
  qstr e.checksum.data ++
  ([',', '"'] ++ "title".data ++ ['"', ':']) ++
  qstr e.title.data ++
  ([',', '"'] ++ "url".data ++ ['"', ':']) ++
  qstr e.url.data ++
  [rbChar]

theorem canonList_eq_map : ∀ vs : List JVal, canonList vs = vs.map canon
  | [] => by rw [canonList, List.map_nil]
  | v :: vs => by rw [canonList, canonList_eq_map vs, List.map_cons]

theorem canonPairs_cons (k : String) (v : JVal)
    (ps : List (String × JVal)) :
    canonPairs ((k, v) :: ps) =
      ('"' :: k.data ++ '"' :: ':' :: canon v) :: canonPairs ps := by
  rw [canonPairs]

/-- The canonical serialization of one evidence entry. -/
theorem canon_evBody (e : EvidenceItem) :
    canon (EvidenceItem.toJVal e) = evBody e := by
  rw [EvidenceItem.toJVal, canon, evPairs_sort]
  rw [canonPairs_cons, canonPairs_cons, canonPairs_cons, canonPairs_cons]
  rw [show canonPairs [] = [] from by rw [canonPairs]]
  rw [canon, canon, canon, canon]
  simp only [joinComma, evBody, lbChar, rbChar, List.cons_append,
    List.append_assoc, List.nil_append, List.append_nil,
    List.singleton_append]

/-- Serialized evidence array. -/
def evArr (es : List EvidenceItem) : List Char :=
  '[' :: joinComma (es.map evBody) ++ [']']

/-- Serialized topics array (each topic a quoted string). -/
def topicsArr (ts : List String) : List Char :=
  '[' :: joinComma (ts.map (fun t => qstr t.data)) ++ [']']

/-- The canonical serialization of `factObj`, written as literal key
segments between the variable parts, in sorted key order:
claim, evidence, id, issued_at, last_reviewed_at, severity, status,
summary, topics, verdict, version.  `last_reviewed_at` repeats the
`issued_at` value, `status` is the constant string "active", and
`version` is the constant number 1. -/
def factBody (fd : FactData) : List Char :=
  ([lbChar, '"'] ++ "claim".data ++ ['"', ':']) ++
  qstr fd.claim_text.data ++
  ([',', '"'] ++ "evidence".data ++ ['"', ':']) ++
  evArr fd.evidence ++
  ([',', '"'] ++ "id".data ++ ['"', ':']) ++
  qstr fd.fact_id.data ++
  ([',', '"'] ++ "issued_at".data ++ ['"', ':']) ++
  qstr fd.issued_at.data ++
  ([',', '"'] ++ "last_reviewed_at".data ++ ['"', ':']) ++
  qstr fd.issued_at.data ++
  ([',', '"'] ++ "severity".data ++ ['"', ':']) ++
  qstr fd.severity.data ++
  ([',', '"'] ++ "status".data ++ ['"', ':'] ++ qstr "active".data) ++
  ([',', '"'] ++ "summary".data ++ ['"', ':']) ++
  qstr fd.summary.data ++
  ([',', '"'] ++ "topics".data ++ ['"', ':']) ++
  topicsArr fd.topics ++
  ([',', '"'] ++ "verdict".data ++ ['"', ':']) ++
  qstr fd.verdict.data ++
  ([',', '"'] ++ "version".data ++ ['"', ':'] ++ numChars (.fin 1) ++
    [rbChar])

theorem canonList_map_str (ts : List String) :
    canonList (ts.map JVal.str) = ts.map (fun t => qstr t.data) := by
  induction ts with
  | nil => rw [List.map_nil, canonList, List.map_nil]
  | cons t ts ih =>
    rw [List.map_cons, canonList, ih, List.map_cons, canon]

theorem canonList_map_ev (es : List EvidenceItem) :
    canonList (es.map EvidenceItem.toJVal) = es.map evBody := by
  induction es with
  | nil => rw [List.map_nil, canonList, List.map_nil]
  | cons e es ih =>
    rw [List.map_cons, canonList, ih, List.map_cons, canon_evBody]

/-- The canonical serialization of the fact object. -/
theorem canon_factObj (fd : FactData) :
    canon (factObj fd) = factBody fd := by
  rw [factObj, canon, factPairs_sort]
  rw [canonPairs_cons, canonPairs_cons, canonPairs_cons, canonPairs_cons,
    canonPairs_cons, canonPairs_cons, canonPairs_cons, canonPairs_cons,
    canonPairs_cons, canonPairs_cons, canonPairs_cons,
    show canonPairs [] = [] from by rw [canonPairs]]
  simp only [canon]
  rw [canonList_map_ev, canonList_map_str]
  simp only [joinComma, factBody, evArr, topicsArr, lbChar, rbChar,
    numChars, List.cons_append, List.append_assoc, List.nil_append,
    List.append_nil, List.singleton_append]

theorem cancel3 {l1 l2 l3 x y : List Char}
    (h : l1 ++ (l2 ++ (l3 ++ x)) = l1 ++ (l2 ++ (l3 ++ y))) : x = y :=
  List.append_cancel_left
    (List.append_cancel_left (List.append_cancel_left h))

/-- Unique decodability of a serialized evidence entry. -/
theorem evBody_step (e1 e2 : EvidenceItem) (r s : List Char)
    (h : evBody e1 ++ r = evBody e2 ++ s) : e1 = e2 ∧ r = s := by
  unfold evBody at h
  simp only [List.append_assoc, List.cons_append, List.nil_append,
    List.cons.injEq, true_and] at h
  obtain ⟨ha, h2⟩ := qstr_step _ _ _ _ h
  simp only [List.cons.injEq, true_and] at h2
  obtain ⟨hc, h4⟩ := qstr_step _ _ _ _ h2
  simp only [List.cons.injEq, true_and] at h4
  obtain ⟨ht, h6⟩ := qstr_step _ _ _ _ h4
  simp only [List.cons.injEq, true_and] at h6
  obtain ⟨hu, h8⟩ := qstr_step _ _ _ _ h6
  simp only [List.cons.injEq, true_and] at h8
  cases e1; cases e2
  exact ⟨by
    simp only at ha hc ht hu
    rw [str_data_inj ha, str_data_inj hc, str_data_inj ht,
      str_data_inj hu], h8⟩

theorem evBody_head (e : EvidenceItem) :
    ∃ d t0, evBody e = d :: t0 ∧ d ≠ ']' :=
  ⟨lbChar, _, rfl, by decide⟩

theorem topicBody_step (t1 t2 : String) (r s : List Char)
    (h : qstr t1.data ++ r = qstr t2.data ++ s) : t1 = t2 ∧ r = s := by
  obtain ⟨hd, hr⟩ := qstr_step _ _ _ _ h
  exact ⟨str_data_inj hd, hr⟩

theorem topicBody_head (t : String) :
    ∃ d t0, qstr t.data = d :: t0 ∧ d ≠ ']' :=
  ⟨'"', _, rfl, by decide⟩

/-- Injectivity of the canonical fact serialization in every field that
`hashFactJSON` reads (except the constant-valued ones): equal canonical
strings force equal claim text, evidence list, fact id, issued_at,
severity, summary, topics and verdict. -/
theorem factBody_inj {fd1 fd2 : FactData} (h : factBody fd1 = factBody fd2) :
    fd1.claim_text = fd2.claim_text ∧ fd1.evidence = fd2.evidence ∧
    fd1.fact_id = fd2.fact_id ∧ fd1.issued_at = fd2.issued_at ∧
    fd1.severity = fd2.severity ∧ fd1.summary = fd2.summary ∧
    fd1.topics = fd2.topics ∧ fd1.verdict = fd2.verdict := by
  unfold factBody evArr topicsArr at h
  simp only [List.append_assoc, List.cons_append, List.nil_append,
    List.singleton_append, List.cons.injEq, true_and] at h
  obtain ⟨hclaim, h2⟩ := qstr_step _ _ _ _ h
  simp only [List.cons.injEq, true_and] at h2
  obtain ⟨hev, h3⟩ := arr_step evBody evBody_step evBody_head _ _ _ _ h2
  simp only [List.cons.injEq, true_and] at h3
  obtain ⟨hid, h4⟩ := qstr_step _ _ _ _ h3
  simp only [List.cons.injEq, true_and] at h4
  obtain ⟨hia, h5⟩ := qstr_step _ _ _ _ h4
  simp only [List.cons.injEq, true_and] at h5
  obtain ⟨-, h6⟩ := qstr_step _ _ _ _ h5
  simp only [List.cons.injEq, true_and] at h6
  obtain ⟨hsev, h7⟩ := qstr_step _ _ _ _ h6
  simp only [List.cons.injEq, true_and] at h7
  obtain ⟨-, h8⟩ := qstr_step _ _ _ _ h7
  simp only [List.cons.injEq, true_and] at h8
  obtain ⟨hsum, h9⟩ := qstr_step _ _ _ _ h8
  simp only [List.cons.injEq, true_and] at h9
  obtain ⟨htop, h10⟩ := arr_step (fun t : String => qstr t.data)
    topicBody_step topicBody_head _ _ _ _ h9
  simp only [List.cons.injEq, true_and] at h10
  obtain ⟨hver, -⟩ := qstr_step _ _ _ _ h10
  exact ⟨str_data_inj hclaim, hev, str_data_inj hid, str_data_inj hia,
    str_data_inj hsev, str_data_inj hsum, htop, str_data_inj hver⟩

/-! ## C2: hash sensitivity of `hashFactJSON` -/

/-- C2 (amended).  `hashFactJSON` is unchanged by any change to the
input's `last_reviewed_at`, `version` or `status` fields — the object it
hashes copies `issued_at` into `last_reviewed_at`, hardcodes `version`
to 1, and hardcodes `status` to the string "active" (so status IS part of
the canonical hash input, but as a constant, rather than being excluded).
Changing the claim text, verdict, severity, summary, evidence list, or
`issued_at` changes the canonical hash input (the string whose SHA-256
digest is the fact hash). -/
theorem C2_hash_field_sensitivity :
    (∀ (fd : FactData) (x : String),
      hashFactJSON { fd with last_reviewed_at := x } = hashFactJSON fd)
    ∧ (∀ (fd : FactData) (n : Nat),
      hashFactJSON { fd with version := n } = hashFactJSON fd)
    ∧ (∀ (fd : FactData) (x : String),
      hashFactJSON { fd with status := x } = hashFactJSON fd)
    ∧ (∀ (fd : FactData) (c : String), c ≠ fd.claim_text →
      canonicalizeJSON (factObj { fd with claim_text := c }) ≠
        canonicalizeJSON (factObj fd))
    ∧ (∀ (fd : FactData) (c : String), c ≠ fd.verdict →
      canonicalizeJSON (factObj { fd with verdict := c }) ≠
        canonicalizeJSON (factObj fd))
    ∧ (∀ (fd : FactData) (c : String), c ≠ fd.severity →
      canonicalizeJSON (factObj { fd with severity := c }) ≠
        canonicalizeJSON (factObj fd))
    ∧ (∀ (fd : FactData) (c : String), c ≠ fd.summary →
      canonicalizeJSON (factObj { fd with summary := c }) ≠
        canonicalizeJSON (factObj fd))
    ∧ (∀ (fd : FactData) (c : String), c ≠ fd.issued_at →
      canonicalizeJSON (factObj { fd with issued_at := c }) ≠
        canonicalizeJSON (factObj fd))
    ∧ (∀ (fd : FactData) (es : List EvidenceItem), es ≠ fd.evidence →
      canonicalizeJSON (factObj { fd with evidence := es }) ≠
        canonicalizeJSON (factObj fd)) := by
  refine ⟨fun fd x => rfl, fun fd n => rfl, fun fd x => rfl,
    ?_, ?_, ?_, ?_, ?_, ?_⟩
  · intro fd c hne hc
    have hcanon : canon (factObj { fd with claim_text := c }) =
        canon (factObj fd) := congrArg String.data hc
    rw [canon_factObj, canon_factObj] at hcanon
    exact hne (factBody_inj hcanon).1
  · intro fd c hne hc
    have hcanon : canon (factObj { fd with verdict := c }) =
        canon (factObj fd) := congrArg String.data hc
    rw [canon_factObj, canon_factObj] at hcanon
    exact hne (factBody_inj hcanon).2.2.2.2.2.2.2
  · intro fd c hne hc
    have hcanon : canon (factObj { fd with severity := c }) =
        canon (factObj fd) := congrArg String.data hc
    rw [canon_factObj, canon_factObj] at hcanon
    exact hne (factBody_inj hcanon).2.2.2.2.1
  · intro fd c hne hc
    have hcanon : canon (factObj { fd with summary := c }) =
        canon (factObj fd) := congrArg String.data hc
    rw [canon_factObj, canon_factObj] at hcanon
    exact hne (factBody_inj hcanon).2.2.2.2.2.1
  · intro fd c hne hc
    have hcanon : canon (factObj { fd with issued_at := c }) =
        canon (factObj fd) := congrArg String.data hc
    rw [canon_factObj, canon_factObj] at hcanon
    exact hne (factBody_inj hcanon).2.2.2.1
  · intro fd es hne hc
    have hcanon : canon (factObj { fd with evidence := es }) =
        canon (factObj fd) := congrArg String.data hc
    rw [canon_factObj, canon_factObj] at hcanon
    exact hne (factBody_inj hcanon).2.1

/-- Concrete fact record used in counterexamples and witnesses. -/
def fdA : FactData :=
  { fact_id := "who-2025-0001",
    claim_text := "Drinking hot water cures COVID-19",
    verdict := "false", severity := "high",
    summary := "No evidence supports this claim",
    evidence := [⟨"https://who.int/x", "WHO brief", "abc",
      "2025-01-29T10:00:00Z"⟩],
    topics := ["covid"],
    issued_at := "2025-01-29T10:00:00Z",
    last_reviewed_at := "2025-01-29T10:00:00Z",
    version := 1, status := "active" }

/-- The same record with a different `last_reviewed_at` (a substantive
timestamp per the claim). -/
def fdB : FactData := { fdA with last_reviewed_at := "2026-03-03T12:00:00Z" }

/-- Counterexample to C2 as stated: two records that differ only in the
`last_reviewed_at` timestamp hash identically under `hashFactJSON`
(which reads `issued_at` for both timestamp slots), so changing that
substantive field does NOT change the hash. -/
theorem C2_counterexample :
    fdA.last_reviewed_at ≠ fdB.last_reviewed_at ∧
    fdA.claim_text = fdB.claim_text ∧ fdA.fact_id = fdB.fact_id ∧
    fdA.verdict = fdB.verdict ∧ fdA.severity = fdB.severity ∧
    fdA.summary = fdB.summary ∧ fdA.evidence = fdB.evidence ∧
    fdA.topics = fdB.topics ∧ fdA.issued_at = fdB.issued_at ∧
    fdA.version = fdB.version ∧ fdA.status = fdB.status ∧
    hashFactJSON fdA = hashFactJSON fdB :=
  ⟨by simp [fdA, fdB], rfl, rfl, rfl, rfl, rfl, rfl, rfl, rfl, rfl, rfl,
    rfl⟩

/-- Witness for the amended C2: at the concrete record `fdA`, changing
the claim text changes the canonical hash input, via the theorem. -/
theorem C2_witness :
    ("Something else" ≠ fdA.claim_text) ∧
    canonicalizeJSON (factObj { fdA with claim_text := "Something else" })
      ≠ canonicalizeJSON (factObj fdA) :=
  ⟨by simp [fdA],
    C2_hash_field_sensitivity.2.2.2.1 fdA "Something else" (by simp [fdA])⟩

/-! ## Registration coordinator (from `scripts/add_who_facts.js`) -/

/-- WHO fact file contents (the JSON schema of
`backend/app/data/who_facts/`). -/
structure WhoFactJson where
  id : String
  claim_text : String
  verdict : String
  severity : String
  summary : String
  topics : List String
  evidence : List EvidenceItem
  issued_at : String
  last_reviewed_at : String
  version : Nat
deriving DecidableEq, Repr

/-- JSON object of a WHO fact file, in file field order. -/
def WhoFactJson.toJVal (f : WhoFactJson) : JVal :=
  .obj [("id", .str f.id), ("claim_text", .str f.claim_text),
        ("verdict", .str f.verdict), ("severity", .str f.severity),
        ("summary", .str f.summary),
        ("topics", .arr (f.topics.map JVal.str)),
        ("evidence", .arr (f.evidence.map EvidenceItem.toJVal)),
        ("issued_at", .str f.issued_at),
        ("last_reviewed_at", .str f.last_reviewed_at),
        ("version", .num (.fin (f.version : Int)))]

/-- The script's `computeFactHash`: canonical JSON (RFC 8785 — sorted
keys, `JSON.stringify` serialization, the same algorithm as the
frontend's `canonicalizeJSON`), SHA-256, 0x-prefixed hex. -/
def computeFactHash (f : WhoFactJson) : String :=
  sha256hex (canonicalizeJSON f.toJVal)

/-- Big-endian byte-list value, used to view the 32 digest bytes as the
`bytes32` the contract receives. -/
def beBytesToNat (bs : List Nat) : Nat := bs.foldl (fun a b => a * 256 + b) 0

/-- The numeric `bytes32` fact hash submitted on-chain. -/
def factHashOf (f : WhoFactJson) : Nat :=
  beBytesToNat (sha256 (utf8Bytes (canonicalizeJSON f.toJVal)))

/-- The script's `verdictToEnum` mapping; an unknown verdict yields
`undefined` in the source (modelled as `none`), which makes the
contract call throw client-side. -/
def verdictToEnum : String → Option Verdict
| "true" => some .TRUE
| "false" => some .FALSE
| "misleading" => some .MISLEADING
| "unproven" => some .UNPROVEN
| "partially_true" => some .PARTIALLY_TRUE
| _ => none

/-- The script's `severityToEnum` mapping. -/
def severityToEnum : String → Option Severity
| "low" => some .LOW
| "medium" => some .MEDIUM
| "high" => some .HIGH
| "critical" => some .CRITICAL
| _ => none

/-- Leap year predicate (Gregorian). -/
def isLeap (y : Nat) : Bool := (y % 4 == 0 && y % 100 != 0) || y % 400 == 0

/-- Cumulative days before the (1-based) month in a non-leap year. -/
def cumDays : Nat → Nat
| 1 => 0
| 2 => 31
| 3 => 59
| 4 => 90
| 5 => 120
| 6 => 151
| 7 => 181
| 8 => 212
| 9 => 243
| 10 => 273
| 11 => 304
| 12 => 334
| _ => 0

/-- Days in a month. -/
def daysInMonth (y m : Nat) : Nat :=
  if m = 2 then (if isLeap y then 29 else 28)
  else if m = 4 ∨ m = 6 ∨ m = 9 ∨ m = 11 then 30
  else 31

/-- Number of leap years in `[1, y)`. -/
def leapsBefore (y : Nat) : Nat := (y - 1) / 4 - (y - 1) / 100 + (y - 1) / 400

/-- Days from 1970-01-01 to the given civil date (date not before the
epoch). -/
def daysSinceEpoch (y mo d : Nat) : Nat :=
  365 * (y - 1970) + (leapsBefore y - leapsBefore 1970) + cumDays mo +
    (if isLeap y && decide (2 < mo) then 1 else 0) + (d - 1)

/-- Value of a decimal digit character. -/
def digitVal (c : Char) : Nat := c.toNat - 48

/-- The script's `isoToUnix` (`Date.parse` in UTC divided by 1000),
modelled for the `YYYY-MM-DDTHH:MM:SSZ` timestamps of the WHO fact
files, with years from 1970 on; a string in any other shape or with an
invalid date yields NaN in the source, modelled as `none`. -/
def isoToUnix (s : String) : Option Nat :=
  match s.data with
  | [y3, y2, y1, y0, '-', m1, m0, '-', d1, d0, 'T',
     h1, h0, ':', mi1, mi0, ':', s1, s0, 'Z'] =>
    if (y3.isDigit && y2.isDigit && y1.isDigit && y0.isDigit &&
        m1.isDigit && m0.isDigit && d1.isDigit && d0.isDigit &&
        h1.isDigit && h0.isDigit && mi1.isDigit && mi0.isDigit &&
        s1.isDigit && s0.isDigit) then
      let y := 1000 * digitVal y3 + 100 * digitVal y2 + 10 * digitVal y1 +
        digitVal y0
      let mo := 10 * digitVal m1 + digitVal m0
      let d := 10 * digitVal d1 + digitVal d0
      let hh := 10 * digitVal h1 + digitVal h0
      let mm := 10 * digitVal mi1 + digitVal mi0
      let ss := 10 * digitVal s1 + digitVal s0
      if 1970 ≤ y ∧ 1 ≤ mo ∧ mo ≤ 12 ∧ 1 ≤ d ∧ d ≤ daysInMonth y mo ∧
          hh < 24 ∧ mm < 60 ∧ ss < 60 then
        some (daysSinceEpoch y mo d * 86400 + hh * 3600 + mm * 60 + ss)
      else none
    else none
  | _ => none

/-- Per-record outcome of the registration loop: registered, skipped
(hash already on-chain), failed (the `addFact` transaction reverted and
the error was caught), or a client-side conversion failure (unknown
verdict/severity enum or unparseable timestamp — ethers throws before
any transaction, also caught by the loop). -/
inductive RecResult
| registered
| skipped
| failed (e : Err)
| clientError
deriving DecidableEq, Repr

/-- Transaction context of the registration script: the signer and the
block environment, fixed across the run. -/
structure Env where
  sender : Nat
  now : Nat
  blockNum : Nat

/-- One iteration of the script's loop: compute the canonical hash,
probe `checkFactExists`, skip if present, otherwise convert the enums
and timestamps and submit `addFact`, catching any error as a per-record
failure. -/
def processOne (env : Env) (st : Registry) (f : WhoFactJson) :
    RecResult × Registry :=
  let h := factHashOf f
  if (checkFactExists st h).1 then (.skipped, st)
  else
    match verdictToEnum f.verdict, severityToEnum f.severity,
      isoToUnix f.issued_at, isoToUnix f.last_reviewed_at with
    | some v, some sv, some ia, some lra =>
      match addFact st env.sender env.now env.blockNum h f.id v sv ia lra
        f.version with
      | .ok st2 => (.registered, st2)
      | .error e => (.failed e, st)
    | _, _, _, _ => (.clientError, st)

/-- The whole registration loop over a batch of fact files, producing
the per-record report in order. -/
def processBatch (env : Env) (st : Registry) :
    List WhoFactJson → List RecResult × Registry
| [] => ([], st)
| f :: rest =>
  let pr := processOne env st f
  let rr := processBatch env pr.2 rest
  (pr.1 :: rr.1, rr.2)

/-- A loop iteration that does not register leaves the registry
unchanged. -/
theorem processOne_state (env : Env) (st : Registry) (f : WhoFactJson) :
    (processOne env st f).1 = .registered ∨ (processOne env st f).2 = st := by
  unfold processOne
  dsimp only
  split
  · exact Or.inr rfl
  · split
    · split
      · exact Or.inl rfl
      · exact Or.inr rfl
    · exact Or.inr rfl

/-- The report always has one entry per record. -/
theorem processBatch_length (env : Env) :
    ∀ (fs : List WhoFactJson) (st : Registry),
      (processBatch env st fs).1.length = fs.length
  | [], _ => rfl
  | _ :: rest, st => by
    unfold processBatch
    simp only [List.length_cons]
    rw [processBatch_length env rest]

/-- C9.  Partial-failure tolerance of the registration loop: the report
always contains exactly one entry per record of the batch, and when a
record's registration is rejected (`addFact` reverts with some error,
for example an invalid timestamp), that rejection is recorded as a
per-record failure, the registry is unchanged by that record, and the
remaining records are processed exactly as they would have been —
the batch never aborts.  Confirms the claim. -/
theorem C9_partial_failure_tolerance (env : Env) (st : Registry)
    (f : WhoFactJson) (fs : List WhoFactJson) (e : Err)
    (hf : (processOne env st f).1 = .failed e) :
    processBatch env st (f :: fs) =
      (.failed e :: (processBatch env st fs).1,
        (processBatch env st fs).2) ∧
    (processBatch env st (f :: fs)).1.length = (f :: fs).length := by
  have hst : (processOne env st f).2 = st := by
    rcases processOne_state env st f with hr | hok
    · rw [hf] at hr; exact absurd hr (by simp)
    · exact hok
  constructor
  · show ((processOne env st f).1 ::
      (processBatch env (processOne env st f).2 fs).1,
      (processBatch env (processOne env st f).2 fs).2) = _
    rw [hf, hst]
  · rw [processBatch_length]

/-- Monotonicity relation between registry states: the owner is
unchanged, every registered hash slot is unchanged, and every taken
fact-id mapping is unchanged.  The registration loop only moves the
registry forward along this relation. -/
def Mono (st st2 : Registry) : Prop :=
  st2.owner = st.owner ∧
  (∀ h, (st.factsByHash h).factHash ≠ 0 →
    st2.factsByHash h = st.factsByHash h) ∧
  (∀ id, st.hashByFactId id ≠ 0 →
    st2.hashByFactId id = st.hashByFactId id)

theorem mono_refl (st : Registry) : Mono st st :=
  ⟨rfl, fun _ _ => rfl, fun _ _ => rfl⟩

theorem mono_trans {s1 s2 s3 : Registry} (h12 : Mono s1 s2)
    (h23 : Mono s2 s3) : Mono s1 s3 := by
  refine ⟨h23.1.trans h12.1, fun h hx => ?_, fun id hx => ?_⟩
  · have e12 := h12.2.1 h hx
    have hx2 : (s2.factsByHash h).factHash ≠ 0 := by rw [e12]; exact hx
    exact (h23.2.1 h hx2).trans e12
  · have e12 := h12.2.2 id hx
    have hx2 : s2.hashByFactId id ≠ 0 := by rw [e12]; exact hx
    exact (h23.2.2 id hx2).trans e12

/-- A successful `addFact` only moves the registry forward. -/
theorem addFact_ok_mono {st : Registry} {sender now bn h : Nat}
    {id : String} {v : Verdict} {sv : Severity} {ia lra ver : Nat}
    {st2 : Registry}
    (he : addFact st sender now bn h id v sv ia lra ver = Except.ok st2) :
    Mono st st2 := by
  obtain ⟨-, hfresh, -, -, -, -, -, hidfree, hst2⟩ := addFact_ok_inv he
  subst hst2
  refine ⟨rfl, fun h2 hx => ?_, fun id2 hx => ?_⟩
  · dsimp only
    rw [if_neg (fun heq => hx (by rw [heq]; exact hfresh))]
  · dsimp only
    rw [if_neg (fun heq => hx (by rw [heq]; exact hidfree))]

/-- One loop iteration only moves the registry forward. -/
theorem processOne_mono (env : Env) (st : Registry) (f : WhoFactJson) :
    Mono st (processOne env st f).2 := by
  unfold processOne
  dsimp only
  split
  · exact mono_refl st
  · split
    · split
      next st2 heq => exact addFact_ok_mono heq
      · exact mono_refl st
    · exact mono_refl st

/-- The whole loop only moves the registry forward. -/
theorem processBatch_mono (env : Env) :
    ∀ (fs : List WhoFactJson) (st : Registry),
      Mono st (processBatch env st fs).2
  | [], st => mono_refl st
  | f :: rest, st => by
    show Mono st (processBatch env (processOne env st f).2 rest).2
    exact mono_trans (processOne_mono env st f)
      (processBatch_mono env rest (processOne env st f).2)

/-- If `addFact` reverted once, re-submitting the same call against any
forward state in which the hash is still absent reverts again (possibly
with a different reason): the validation errors are determined by the
record and the environment, and a taken fact id is never released. -/
theorem addFact_error_mono {st1 st2 : Registry} {sender now bn h : Nat}
    {id : String} {v : Verdict} {sv : Severity} {ia lra ver : Nat} {e : Err}
    (he : addFact st1 sender now bn h id v sv ia lra ver = .error e)
    (hm : Mono st1 st2)
    (hfresh2 : (st2.factsByHash h).factHash = 0) :
    ∃ e2, addFact st2 sender now bn h id v sv ia lra ver = .error e2 := by
  unfold addFact at he ⊢
  by_cases c1 : sender ≠ st1.owner
  · exact ⟨.unauthorized, by rw [if_pos (by rw [hm.1]; exact c1)]⟩
  rw [if_neg c1] at he
  rw [if_neg (show ¬sender ≠ st2.owner by rw [hm.1]; exact c1)]
  have hfresh1 : ¬(st1.factsByHash h).factHash ≠ 0 := by
    intro hx
    have hs := hm.2.1 h hx
    rw [hs] at hfresh2
    exact hx hfresh2
  rw [if_neg hfresh1] at he
  rw [if_neg (not_not_intro hfresh2)]
  by_cases c3 : h = 0
  · exact ⟨.invalidFactHash, by rw [if_pos c3]⟩
  rw [if_neg c3] at he ⊢
  by_cases c4 : id = ""
  · exact ⟨.emptyFactId, by rw [if_pos c4]⟩
  rw [if_neg c4] at he ⊢
  by_cases c5 : ver = 0
  · exact ⟨.invalidVersion, by rw [if_pos c5]⟩
  rw [if_neg c5] at he ⊢
  by_cases c6 : now < ia
  · exact ⟨.invalidTimestamp, by rw [if_pos c6]⟩
  rw [if_neg c6] at he ⊢
  by_cases c7 : lra < ia
  · exact ⟨.invalidTimestamp, by rw [if_pos c7]⟩
  rw [if_neg c7] at he ⊢
  by_cases c8 : st1.hashByFactId id ≠ 0
  · have hc : st2.hashByFactId id ≠ 0 := by
      rw [hm.2.2 id c8]; exact c8
    exact ⟨.identifierConflict, by rw [if_pos hc]⟩
  · rw [if_neg c8] at he
    exact absurd he (by simp)

/-- Relation between a record's first-run outcome and its outcome when
the same batch is re-run: anything that went through (or was already
present) is skipped; a failure fails again or is skipped; nothing is
registered anew. -/
def rerunOk : RecResult → RecResult → Prop
| .registered, r2 => r2 = .skipped
| .skipped, r2 => r2 = .skipped
| .failed _, r2 => r2 = .skipped ∨ ∃ e2, r2 = .failed e2
| .clientError, r2 => r2 = .skipped ∨ r2 = .clientError

theorem rerunOk_not_registered {r1 r2 : RecResult} (h : rerunOk r1 r2) :
    r2 ≠ .registered := by
  cases r1 with
  | registered => rw [rerunOk] at h; rw [h]; simp
  | skipped => rw [rerunOk] at h; rw [h]; simp
  | failed e =>
    rw [rerunOk] at h
    rcases h with h | ⟨e2, h⟩ <;> rw [h] <;> simp
  | clientError =>
    rw [rerunOk] at h
    rcases h with h | h <;> rw [h] <;> simp

theorem processOne_skipped (env : Env) {st : Registry} {f : WhoFactJson}
    (hp : (checkFactExists st (factHashOf f)).1 = true) :
    processOne env st f = (.skipped, st) := by
  unfold processOne
  dsimp only
  rw [if_pos hp]

/-- Behaviour of one record on a re-run: starting from any state `stF`
that is forward of both the state at which the record was processed and
the state after it was processed, the record is skipped or fails, and
the registry is unchanged. -/
theorem processOne_rerun (env : Env) (stP stF : Registry) (f : WhoFactJson)
    (hm1 : Mono stP stF) (hm2 : Mono (processOne env stP f).2 stF) :
    (processOne env stF f).2 = stF ∧
    rerunOk (processOne env stP f).1 (processOne env stF f).1 := by
  by_cases hp1 : (checkFactExists stP (factHashOf f)).1 = true
  · have hrun1 := processOne_skipped env hp1
    have hx : (stP.factsByHash (factHashOf f)).factHash ≠ 0 := by
      unfold checkFactExists at hp1
      exact bne_iff_ne.mp hp1
    have hs := hm1.2.1 _ hx
    have hp2 : (checkFactExists stF (factHashOf f)).1 = true := by
      unfold checkFactExists
      rw [hs]
      exact bne_iff_ne.mpr hx
    have hrun2 := processOne_skipped env hp2
    rw [hrun1, hrun2]
    exact ⟨rfl, rfl⟩
  · by_cases hp2 : (checkFactExists stF (factHashOf f)).1 = true
    · have hrun2 := processOne_skipped env hp2
      rw [hrun2]
      refine ⟨rfl, ?_⟩
      cases hr1 : (processOne env stP f).1 with
      | registered => exact rfl
      | skipped => exact rfl
      | failed e => exact Or.inl rfl
      | clientError => exact Or.inl rfl
    · have hfresh2 : (stF.factsByHash (factHashOf f)).factHash = 0 := by
        unfold checkFactExists at hp2
        simpa using hp2
      rcases hv : verdictToEnum f.verdict with - | v
      · have hrun1 : processOne env stP f = (.clientError, stP) := by
          unfold processOne
          dsimp only
          rw [if_neg hp1]
          simp only [hv]
        have hrun2 : processOne env stF f = (.clientError, stF) := by
          unfold processOne
          dsimp only
          rw [if_neg hp2]
          simp only [hv]
        rw [hrun1, hrun2]
        exact ⟨rfl, Or.inr rfl⟩
      rcases hsv : severityToEnum f.severity with - | sv
      · have hrun1 : processOne env stP f = (.clientError, stP) := by
          unfold processOne
          dsimp only
          rw [if_neg hp1]
          simp only [hv, hsv]
        have hrun2 : processOne env stF f = (.clientError, stF) := by
          unfold processOne
          dsimp only
          rw [if_neg hp2]
          simp only [hv, hsv]
        rw [hrun1, hrun2]
        exact ⟨rfl, Or.inr rfl⟩
      rcases hia : isoToUnix f.issued_at with - | ia
      · have hrun1 : processOne env stP f = (.clientError, stP) := by
          unfold processOne
          dsimp only
          rw [if_neg hp1]
          simp only [hv, hsv, hia]
        have hrun2 : processOne env stF f = (.clientError, stF) := by
          unfold processOne
          dsimp only
          rw [if_neg hp2]
          simp only [hv, hsv, hia]
        rw [hrun1, hrun2]
        exact ⟨rfl, Or.inr rfl⟩
      rcases hlra : isoToUnix f.last_reviewed_at with - | lra
      · have hrun1 : processOne env stP f = (.clientError, stP) := by
          unfold processOne
          dsimp only
          rw [if_neg hp1]
          simp only [hv, hsv, hia, hlra]
        have hrun2 : processOne env stF f = (.clientError, stF) := by
          unfold processOne
          dsimp only
          rw [if_neg hp2]
          simp only [hv, hsv, hia, hlra]
        rw [hrun1, hrun2]
        exact ⟨rfl, Or.inr rfl⟩
      cases hadd : addFact stP env.sender env.now env.blockNum
          (factHashOf f) f.id v sv ia lra f.version with
      | ok st2 =>
        have hrun1 : processOne env stP f = (.registered, st2) := by
          unfold processOne
          dsimp only
          rw [if_neg hp1]
          simp only [hv, hsv, hia, hlra, hadd]
        rw [hrun1] at hm2
        obtain ⟨-, -, hnz, -, -, -, -, -, hst2⟩ := addFact_ok_inv hadd
        have hx2 : (st2.factsByHash (factHashOf f)).factHash ≠ 0 := by
          subst hst2
          dsimp only
          rw [if_pos rfl]
          exact hnz
        have hs := hm2.2.1 _ hx2
        rw [hs] at hfresh2
        exact absurd hfresh2 hx2
      | error e =>
        have hrun1 : processOne env stP f = (.failed e, stP) := by
          unfold processOne
          dsimp only
          rw [if_neg hp1]
          simp only [hv, hsv, hia, hlra, hadd]
        obtain ⟨e2, herr2⟩ := addFact_error_mono hadd hm1 hfresh2
        have hrun2 : processOne env stF f = (.failed e2, stF) := by
          unfold processOne
          dsimp only
          rw [if_neg hp2]
          simp only [hv, hsv, hia, hlra, herr2]
        rw [hrun1, hrun2]
        exact ⟨rfl, Or.inr ⟨e2, rfl⟩⟩

/-- Re-running the loop over any batch from the state it produced (or
any state forward of it): the registry does not change and each record's
outcome relates to its first-run outcome by `rerunOk`. -/
theorem processBatch_rerun (env : Env) (stF : Registry) :
    ∀ (fs : List WhoFactJson) (st : Registry),
      Mono (processBatch env st fs).2 stF →
      processBatch env stF fs = ((processBatch env stF fs).1, stF) ∧
      List.Forall₂ rerunOk (processBatch env st fs).1
        (processBatch env stF fs).1
  | [], st, hm => ⟨rfl, List.Forall₂.nil⟩
  | f :: rest, st, hm => by
    have hmB : Mono (processBatch env (processOne env st f).2 rest).2 stF :=
      hm
    have hm2 : Mono (processOne env st f).2 stF :=
      mono_trans (processBatch_mono env rest (processOne env st f).2) hmB
    have hm1 : Mono st stF := mono_trans (processOne_mono env st f) hm2
    obtain ⟨hstF, hrel⟩ := processOne_rerun env st stF f hm1 hm2
    obtain ⟨hrec, hrel2⟩ := processBatch_rerun env stF rest
      (processOne env st f).2 hmB
    have hshape : processBatch env stF (f :: rest) =
        ((processOne env stF f).1 ::
          (processBatch env (processOne env stF f).2 rest).1,
          (processBatch env (processOne env stF f).2 rest).2) := rfl
    rw [hshape, hstF]
    constructor
    · rw [congrArg Prod.snd hrec]
    · show List.Forall₂ rerunOk
        ((processOne env st f).1 ::
          (processBatch env (processOne env st f).2 rest).1) _
      exact List.Forall₂.cons hrel hrel2

theorem forall2_no_registered :
    ∀ {l1 l2 : List RecResult}, List.Forall₂ rerunOk l1 l2 →
      ∀ r ∈ l2, r ≠ .registered := by
  intro l1 l2 h
  induction h with
  | nil => intro r hr; cases hr
  | cons hab t ih =>
    intro r hr
    cases hr with
    | head => exact rerunOk_not_registered hab
    | tail b hmem => exact ih _ hmem

/-- C7 (amended).  Running the coordinator loop twice over the same
batch with the same signer and block environment: the second run
performs zero new registrations and leaves the registry exactly as the
first run left it; every record that was registered or already-present
(skipped) on the first run is reported as skipped on the second run; a
record that failed on the first run is reported as failed again (or
skipped, if its hash was meanwhile supplied by another record), never
registered. -/
theorem C7_rerun_idempotent (env : Env) (st : Registry)
    (fs : List WhoFactJson) :
    (processBatch env (processBatch env st fs).2 fs).2 =
      (processBatch env st fs).2 ∧
    List.Forall₂ rerunOk (processBatch env st fs).1
      (processBatch env (processBatch env st fs).2 fs).1 ∧
    ∀ r ∈ (processBatch env (processBatch env st fs).2 fs).1,
      r ≠ .registered := by
  obtain ⟨heq, hrel⟩ := processBatch_rerun env (processBatch env st fs).2
    fs st (mono_refl _)
  exact ⟨by rw [congrArg Prod.snd heq], hrel, forall2_no_registered hrel⟩

/-- Sorting the ten WHO-fact-file keys. -/
theorem whoPairs_sort (i ct vd sv su tp ev ia lr ve : JVal) :
    ([("id", i), ("claim_text", ct), ("verdict", vd), ("severity", sv),
      ("summary", su), ("topics", tp), ("evidence", ev), ("issued_at", ia),
      ("last_reviewed_at", lr), ("version", ve)].insertionSort keyLE)
    = [("claim_text", ct), ("evidence", ev), ("id", i), ("issued_at", ia),
       ("last_reviewed_at", lr), ("severity", sv), ("summary", su),
       ("topics", tp), ("verdict", vd), ("version", ve)] := by
  have hperm : ([("id", i), ("claim_text", ct), ("verdict", vd),
      ("severity", sv), ("summary", su), ("topics", tp), ("evidence", ev),
      ("issued_at", ia), ("last_reviewed_at", lr), ("version", ve)] :
      List (String × JVal)).Perm
      [("claim_text", ct), ("evidence", ev), ("id", i), ("issued_at", ia),
       ("last_reviewed_at", lr), ("severity", sv), ("summary", su),
       ("topics", tp), ("verdict", vd), ("version", ve)] := by
    have p1 : ([("id", i)] ++ ("claim_text", ct) :: [("verdict", vd),
        ("severity", sv), ("summary", su), ("topics", tp),
        ("evidence", ev), ("issued_at", ia), ("last_reviewed_at", lr),
        ("version", ve)] : List (String × JVal)).Perm
        (("claim_text", ct) :: ([("id", i)] ++ [("verdict", vd),
        ("severity", sv), ("summary", su), ("topics", tp),
        ("evidence", ev), ("issued_at", ia), ("last_reviewed_at", lr),
        ("version", ve)])) := List.perm_middle
    refine p1.trans (List.Perm.cons _ ?_)
    have p2 : ([("id", i), ("verdict", vd), ("severity", sv),
        ("summary", su), ("topics", tp)] ++ ("evidence", ev) ::
        [("issued_at", ia), ("last_reviewed_at", lr), ("version", ve)] :
        List (String × JVal)).Perm
        (("evidence", ev) :: ([("id", i), ("verdict", vd),
        ("severity", sv), ("summary", su), ("topics", tp)] ++
        [("issued_at", ia), ("last_reviewed_at", lr), ("version", ve)])) :=
      List.perm_middle
    refine p2.trans (List.Perm.cons _ ?_)
    refine List.Perm.cons _ ?_
    have p4 : ([("verdict", vd), ("severity", sv), ("summary", su),
        ("topics", tp)] ++ ("issued_at", ia) :: [("last_reviewed_at", lr),
        ("version", ve)] : List (String × JVal)).Perm
        (("issued_at", ia) :: ([("verdict", vd), ("severity", sv),
        ("summary", su), ("topics", tp)] ++ [("last_reviewed_at", lr),
        ("version", ve)])) := List.perm_middle
    refine p4.trans (List.Perm.cons _ ?_)
    have p5 : ([("verdict", vd), ("severity", sv), ("summary", su),
        ("topics", tp)] ++ ("last_reviewed_at", lr) :: [("version", ve)] :
        List (String × JVal)).Perm
        (("last_reviewed_at", lr) :: ([("verdict", vd), ("severity", sv),
        ("summary", su), ("topics", tp)] ++ [("version", ve)])) :=
      List.perm_middle
    refine p5.trans (List.Perm.cons _ ?_)
    have p6 : ([("verdict", vd)] ++ ("severity", sv) :: [("summary", su),
        ("topics", tp), ("version", ve)] : List (String × JVal)).Perm
        (("severity", sv) :: ([("verdict", vd)] ++ [("summary", su),
        ("topics", tp), ("version", ve)])) := List.perm_middle
    refine p6.trans (List.Perm.cons _ ?_)
    have p7 : ([("verdict", vd)] ++ ("summary", su) :: [("topics", tp),
        ("version", ve)] : List (String × JVal)).Perm
        (("summary", su) :: ([("verdict", vd)] ++ [("topics", tp),
        ("version", ve)])) := List.perm_middle
    refine p7.trans (List.Perm.cons _ ?_)
    have p8 : ([("verdict", vd)] ++ ("topics", tp) :: [("version", ve)] :
        List (String × JVal)).Perm
        (("topics", tp) :: ([("verdict", vd)] ++ [("version", ve)])) :=
      List.perm_middle
    exact p8.trans (List.Perm.cons _ (List.Perm.refl _))
  rw [insertionSort_eq_of_perm _ _ hperm
    (show (["id", "claim_text", "verdict", "severity", "summary",
      "topics", "evidence", "issued_at", "last_reviewed_at", "version"] :
      List String).Nodup from by decide)]
  apply List.Sorted.insertionSort_eq
  simp [List.sorted_cons, keyLE]
  decide

/-- Concrete WHO fact file whose version field is 0, which `addFact`
rejects with "version must be >= 1". -/
def fBad : WhoFactJson :=
  { id := "b", claim_text := "c", verdict := "false", severity := "low",
    summary := "s", topics := [], evidence := [],
    issued_at := "2025-01-29T10:00:00Z",
    last_reviewed_at := "2025-01-29T10:00:00Z", version := 0 }

/-- Transaction context used in the coordinator witnesses. -/
def envW : Env := { sender := 1, now := 1800000000, blockNum := 5 }

set_option maxRecDepth 4000 in
/-- Canonical JSON of `fBad`, fully evaluated. -/
theorem canon_fBad :
    canonicalizeJSON (WhoFactJson.toJVal fBad) =
    "\x7b\"claim_text\":\"c\",\"evidence\":[],\"id\":\"b\",\"issued_at\":\"2025-01-29T10:00:00Z\",\"last_reviewed_at\":\"2025-01-29T10:00:00Z\",\"severity\":\"low\",\"summary\":\"s\",\"topics\":[],\"verdict\":\"false\",\"version\":0\x7d" := by
  rw [canonicalizeJSON, WhoFactJson.toJVal]
  simp only [fBad]
  rw [canon, whoPairs_sort]
  rw [canonPairs_cons, canonPairs_cons, canonPairs_cons, canonPairs_cons,
    canonPairs_cons, canonPairs_cons, canonPairs_cons, canonPairs_cons,
    canonPairs_cons, canonPairs_cons,
    show canonPairs [] = [] from by rw [canonPairs]]
  simp only [canon, List.map_nil]
  rw [show canonList [] = [] from by rw [canonList]]
  decide

set_option maxRecDepth 4000 in
/-- The `bytes32` fact hash of `fBad`, fully evaluated. -/
theorem hash_fBad :
    factHashOf fBad =
    70519786735571412288097657302518631726007225780882644667723505763325952298221 := by
  rw [factHashOf, canon_fBad]
  decide

/-- Processing `fBad` against the fresh registry fails with the
invalid-version revert and leaves the registry unchanged. -/
theorem processOne_fBad :
    processOne envW (initRegistry 1 0) fBad =
      (.failed .invalidVersion, initRegistry 1 0) := by
  unfold processOne
  rw [hash_fBad]
  rfl

/-- Counterexample to C7 as stated: over the batch `[fBad]` (a record
the contract rejects), the first run reports a failure, and the second
run over the same batch reports the same failure again — not "every
record skipped" as the claim requires. -/
theorem C7_counterexample :
    processBatch envW (initRegistry 1 0) [fBad] =
      ([.failed .invalidVersion], initRegistry 1 0) ∧
    (processBatch envW
        (processBatch envW (initRegistry 1 0) [fBad]).2 [fBad]).1 =
      [RecResult.failed Err.invalidVersion] ∧
    RecResult.failed Err.invalidVersion ≠ RecResult.skipped := by
  have h1 : processBatch envW (initRegistry 1 0) [fBad] =
      ([.failed .invalidVersion], initRegistry 1 0) := by
    show ((processOne envW (initRegistry 1 0) fBad).1 ::
      (processBatch envW
        (processOne envW (initRegistry 1 0) fBad).2 []).1,
      (processBatch envW
        (processOne envW (initRegistry 1 0) fBad).2 []).2) = _
    rw [processOne_fBad]
    rfl
  refine ⟨h1, ?_, by decide⟩
  rw [h1]
  show (processBatch envW (initRegistry 1 0) [fBad]).1 = _
  rw [h1]

/-- Witness for C9: the concrete record `fBad` is rejected with the
invalid-version revert, is reported as a per-record failure, and the
batch still produces its full report. -/
theorem C9_witness :
    (processOne envW (initRegistry 1 0) fBad).1 =
      RecResult.failed Err.invalidVersion ∧
    (processBatch envW (initRegistry 1 0) (fBad :: []) =
      (.failed .invalidVersion ::
        (processBatch envW (initRegistry 1 0) []).1,
        (processBatch envW (initRegistry 1 0) []).2) ∧
      (processBatch envW (initRegistry 1 0) (fBad :: [])).1.length =
        (fBad :: []).length) :=
  ⟨by rw [processOne_fBad],
    C9_partial_failure_tolerance envW (initRegistry 1 0) fBad []
      .invalidVersion (by rw [processOne_fBad])⟩
